import Mathlib

/-!
Verification of the SeroAI evidence-fusion and feedback-reliability core.

The definitions below are a shallow embedding of:
  src/core/fusion.py     (class DeepfakeFusion: fuse_rule_based,
                          _apply_hard_evidence_boosts, _get_artifact_scale, predict)
  src/core/feedback_store.py  (store_feedback, get_metric_weights,
                          _extract_metric_contributions, _note_adjustments)
  src/app/config.py      (DECISION constants)

Python floats are modelled as real numbers (the fusion path applies `log`/`exp`,
so its embedding is necessarily noncomputable); the sqlite-backed feedback store
is modelled as a pure state-passing transition over rational counters.
The embedded `predict` follows the default configuration of the repository:
`self.model = 'rule_based'` and `self.calibration = None` (no trained model or
calibration file is shipped under src/), so the rule-based branch is taken.
All definitions precede all theorems; the theorems settle the claims C1-C10.
-/

namespace SeroAI

open Classical

/-- `np.clip(x, lo, hi)` -/
noncomputable def clip (x lo hi : ℝ) : ℝ := min (max x lo) hi

/-- `to_logit` from `_apply_hard_evidence_boosts`:
`p = np.clip(p, 1e-6, 1 - 1e-6); return log(p / (1 - p))`. -/
noncomputable def toLogit (p : ℝ) : ℝ :=
  let q := clip p (1e-6) (1 - 1e-6)
  Real.log (q / (1 - q))

/-- `to_prob` from `_apply_hard_evidence_boosts`: `1 / (1 + exp (-z))`. -/
noncomputable def toProb (z : ℝ) : ℝ := 1 / (1 + Real.exp (-z))

def UNSURE_LOW : ℝ := 0.40

def UNSURE_HIGH : ℝ := 0.60

def AI_THRESHOLD : ℝ := 0.80

def REAL_THRESHOLD : ℝ := 0.20

def LOGIC_BREAK_LOGIT_BONUS : ℝ := 2.5

def WATERMARK_LOGIT_BONUS : ℝ := 1.2

def ANATOMY_LOGIT_BONUS : ℝ := 1.5

def WATERMARK_GENERATOR_LOGIT_BONUS : ℝ := 6.0

def LOGIC_BREAK_STRONG_LOGIT_BONUS : ℝ := 5.0

def HARD_AI_MIN_PROB : ℝ := 0.95

structure Watermark where
  detected : Bool
  confidence : ℝ
  persistent : Bool
  corner : Bool
  generator_hint : Bool
  watermark : Option String
  text : Option String

structure FaceAnalysis where
  face_detected : Bool

structure Forensics where
  prnu_score : ℝ
  flicker_score : ℝ
  codec_score : ℝ

structure AVAnalysis where
  sync_score : ℝ

structure ArtifactAnalysis where
  edge_artifact_score : ℝ
  texture_inconsistency : ℝ
  color_anomaly_score : ℝ
  freq_artifact_score : ℝ

structure FaceDynamics where
  mouth_exaggeration_score : ℝ
  mouth_static_score : ℝ
  eye_blink_anomaly : ℝ
  face_symmetry_drift : ℝ

structure SceneLogic where
  flag : Bool
  incoherence_score : ℝ
  confidence : ℝ

structure Temporal where
  oddity_score : ℝ
  rppg_score : ℝ

structure Quality where
  status : String

structure Bundle where
  watermark : Watermark
  face_analysis : FaceAnalysis
  forensics : Forensics
  av_analysis : AVAnalysis
  artifact_analysis : ArtifactAnalysis
  face_dynamics : FaceDynamics
  scene_logic : SceneLogic
  temporal : Temporal
  quality : Quality

/-- `DeepfakeFusion._get_artifact_scale`. -/
noncomputable def artifactScale (flowOddity : ℝ) : ℝ :=
  if flowOddity ≤ 0.15 then 0.2
  else if flowOddity ≤ 0.25 then 0.4
  else if flowOddity ≤ 0.35 then 0.7
  else 1.0

/-- `forensics_scale = self._get_artifact_scale(oddity) if oddity <= 0.30 else 1.0`. -/
noncomputable def forensicsScale (flowOddity : ℝ) : ℝ :=
  if flowOddity ≤ 0.30 then artifactScale flowOddity else 1.0

/-- The `scores`/`weights` pairs appended by `fuse_rule_based`, in source order.
`mw` is the adaptive `metric_weights` mapping; `weighted(metric, base)` in the
source is `base * metric_weights.get(metric, 1.0)`. -/
noncomputable def fusePairs (mw : String → ℝ) (b : Bundle) : List (ℝ × ℝ) :=
  (if b.watermark.detected then [((0.75 : ℝ), 0.4 * mw "watermark")] else [])
  ++ (if b.face_analysis.face_detected then [((0.5 : ℝ), 0.25 * mw "face_analysis")] else [])
  ++ [ (1 - b.forensics.prnu_score, 0.2 * mw "forensics_prnu"),
       (b.forensics.flicker_score, 0.18 * forensicsScale b.temporal.oddity_score * mw "forensics_flicker"),
       (b.forensics.codec_score, 0.15 * forensicsScale b.temporal.oddity_score * mw "forensics_codec"),
       (1 - b.av_analysis.sync_score, 0.12 * mw "audio_sync"),
       (b.artifact_analysis.edge_artifact_score, 0.16 * artifactScale b.temporal.oddity_score * mw "edge_artifacts"),
       (b.artifact_analysis.texture_inconsistency, 0.14 * artifactScale b.temporal.oddity_score * mw "texture_inconsistency"),
       (b.artifact_analysis.color_anomaly_score, 0.1 * artifactScale b.temporal.oddity_score * mw "color_anomaly"),
       (b.artifact_analysis.freq_artifact_score, 0.14 * artifactScale b.temporal.oddity_score * mw "freq_artifacts"),
       (b.face_dynamics.mouth_exaggeration_score, 0.16 * mw "mouth_exaggeration"),
       (b.face_dynamics.mouth_static_score, 0.14 * mw "mouth_static"),
       (b.face_dynamics.eye_blink_anomaly, 0.12 * mw "eye_blink"),
       (b.face_dynamics.face_symmetry_drift, 0.1 * mw "face_symmetry"),
       (b.scene_logic.incoherence_score, 0.08 * mw "scene_logic") ]

/-- `DeepfakeFusion.fuse_rule_based`: the quality adjustment multiplies every
weight by `0.85` when `quality.status == 'low'`; the aggregate is
`np.average(scores, weights)` and the result is clipped to `[0, 1]`.
The pair list is never empty, so `np.average` always runs in the source;
the `if weights:` guard is mirrored anyway. -/
noncomputable def fuse_rule_based (mw : String → ℝ) (b : Bundle) : ℝ :=
  let pairs0 := fusePairs mw b
  let pairs := if b.quality.status = "low"
    then pairs0.map (fun p => (p.1, p.2 * 0.85)) else pairs0
  let prob := if pairs = [] then (0.5 : ℝ)
    else (pairs.map (fun p => p.1 * p.2)).sum / (pairs.map Prod.snd).sum
  clip prob 0 1

/-- Real-evidence calming: the five logit subtractions, in source order. -/
noncomputable def calmAdjust (b : Bundle) : ℝ :=
  (if b.forensics.prnu_score ≥ 0.70 then (-0.6 : ℝ) else 0)
  + (if b.av_analysis.sync_score ≥ 0.80 then (-0.3 : ℝ) else 0)
  + (if b.temporal.rppg_score ≤ 0.25 then (-0.3 : ℝ) else 0)
  + (if b.temporal.oddity_score ≤ 0.20 then (-0.3 : ℝ) else 0)
  + (if b.scene_logic.incoherence_score ≤ 0.35 ∧ b.scene_logic.flag = false
     then (-0.15 : ℝ) else 0)

/-- `real_evidence_count`: how many of the five calming criteria hold. -/
noncomputable def realEvidenceCount (b : Bundle) : ℕ :=
  (if b.forensics.prnu_score ≥ 0.70 then 1 else 0)
  + (if b.av_analysis.sync_score ≥ 0.80 then 1 else 0)
  + (if b.temporal.rppg_score ≤ 0.25 then 1 else 0)
  + (if b.temporal.oddity_score ≤ 0.20 then 1 else 0)
  + (if b.scene_logic.incoherence_score ≤ 0.35 ∧ b.scene_logic.flag = false
     then 1 else 0)

/-- `has_logic_break`: `scene_logic.flag and confidence >= 0.8`. -/
def HasLogicBreak (b : Bundle) : Prop :=
  b.scene_logic.flag = true ∧ b.scene_logic.confidence ≥ 0.8

/-- `has_strong_logic_break`: `flag and incoherence_score >= 0.8 and confidence >= 0.8`. -/
def HasStrongLogicBreak (b : Bundle) : Prop :=
  b.scene_logic.flag = true ∧ b.scene_logic.incoherence_score ≥ 0.8 ∧
    b.scene_logic.confidence ≥ 0.8

/-- `anatomy_max = max(mouth_exaggeration, mouth_static, eye_blink, face_symmetry)`. -/
noncomputable def anatomyMax (b : Bundle) : ℝ :=
  max (max b.face_dynamics.mouth_exaggeration_score b.face_dynamics.mouth_static_score)
      (max b.face_dynamics.eye_blink_anomaly b.face_dynamics.face_symmetry_drift)

/-- `has_anatomy`: `anatomy_max >= 0.90`. -/
def HasAnatomy (b : Bundle) : Prop := anatomyMax b ≥ 0.90

/-- The logit bonuses applied in `_apply_hard_evidence_boosts`.  In the source,
`has_generator_wm` and `has_wm` are hardcoded to `False` there (watermarks are
handled earlier, inside `predict`), so the two watermark branches are dead;
they are kept verbatim as `if False` branches. -/
noncomputable def hardBonus (b : Bundle) : ℝ :=
  (if False then WATERMARK_GENERATOR_LOGIT_BONUS
   else if False then WATERMARK_LOGIT_BONUS else 0)
  + (if HasStrongLogicBreak b then LOGIC_BREAK_STRONG_LOGIT_BONUS
     else if HasLogicBreak b then LOGIC_BREAK_LOGIT_BONUS else 0)
  + (if HasAnatomy b then ANATOMY_LOGIT_BONUS else 0)

/-- `prob_after_boosts = to_prob(z)` with all logit adjustments applied. -/
noncomputable def pAfterBoosts (p : ℝ) (b : Bundle) : ℝ :=
  toProb (toLogit p + calmAdjust b + hardBonus b)

/-- The condition under which the source sets
`analysis_results['_real_evidence_override'] = {'applied': True, ...}`. -/
def RealEvidenceOverrideApplied (p : ℝ) (b : Bundle) : Prop :=
  ¬HasStrongLogicBreak b ∧ 4 ≤ realEvidenceCount b ∧ pAfterBoosts p b > 0.75

/-- Return value of `DeepfakeFusion._apply_hard_evidence_boosts`:
hard AI evidence (`has_generator_wm or has_strong_logic_break`, with
`has_generator_wm` hardcoded `False`) enforces `max(p, HARD_AI_MIN_PROB)` and
skips the override; otherwise `>= 4` real-evidence criteria and `p > 0.75`
cap the result at `0.65`; otherwise the boosted probability is returned. -/
noncomputable def applyHardEvidenceBoosts (p : ℝ) (b : Bundle) : ℝ :=
  if HasStrongLogicBreak b then max (pAfterBoosts p b) HARD_AI_MIN_PROB
  else if 4 ≤ realEvidenceCount b ∧ pAfterBoosts p b > 0.75 then 0.65
  else pAfterBoosts p b

/-- Python `str.strip()` on a character list: drop whitespace at both ends. -/
def trimChars (l : List Char) : List Char :=
  ((l.dropWhile Char.isWhitespace).reverse.dropWhile Char.isWhitespace).reverse

/-- `str(x or '').upper().strip()` applied to an optional text field. -/
def upperStrip (s : String) : String :=
  String.mk (trimChars (s.toList.map Char.toUpper))

/-- Bool-valued substring test on character lists (Python `needle in hay`). -/
def subList : List Char → List Char → Bool
  | needle, [] => needle.isEmpty
  | needle, c :: t => needle.isPrefixOf (c :: t) || subList needle t

/-- Python `needle in hay` for strings. -/
def strHasSub (needle hay : String) : Bool := subList needle.toList hay.toList

/-- `strict_generator_keywords` from `DeepfakeFusion.predict`. -/
def strictGeneratorKeywords : List String :=
  ["SORA", "SORA AI", "SORA.AI", "SORA-AI",
   "RUNWAY", "RUNWAYML", "RUNWAY ML", "GEN-2", "GEN-3",
   "VEO", "IMAGEN",
   "MIDJOURNEY",
   "PIKA", "SYNTHESIA", "D-ID", "HEYGEN",
   "DALL-E", "DALLE"]

/-- `any(keyword in check_text for keyword in strict_generator_keywords)`. -/
def keywordHit (s : String) : Bool :=
  strictGeneratorKeywords.any (fun k => strHasSub k s)

/-- `wm_text = str(wm.get('watermark', '') or '').upper().strip()`. -/
def wmTextOf (w : Watermark) : String := upperStrip (w.watermark.getD "")

/-- `raw_text = str(wm.get('text', '') or '').upper().strip()`. -/
def rawTextOf (w : Watermark) : String := upperStrip (w.text.getD "")

/-- `check_text = wm_text or raw_text` (Python truthiness on strings). -/
def checkTextOf (w : Watermark) : String :=
  if wmTextOf w ≠ "" then wmTextOf w else rawTextOf w

/-- Check 1 of `predict`: `generator_hint` with confidence `>= 0.75`,
persistence, and nonempty text matching a strict generator keyword. -/
def wmCheck1 (w : Watermark) : Prop :=
  w.generator_hint = true ∧ w.confidence ≥ 0.75 ∧ w.persistent = true ∧
    checkTextOf w ≠ "" ∧ keywordHit (checkTextOf w) = true

/-- Check 2 of `predict`: `generator_hint` with either confidence `>= 0.8`, or
(`elif`) persistent corner placement with confidence `>= 0.7`; text must match. -/
def wmCheck2 (w : Watermark) : Prop :=
  w.generator_hint = true ∧
    ((w.confidence ≥ 0.8 ∧ checkTextOf w ≠ "" ∧ keywordHit (checkTextOf w) = true) ∨
     (¬(w.confidence ≥ 0.8) ∧ w.persistent = true ∧ w.corner = true ∧
       w.confidence ≥ 0.7 ∧ checkTextOf w ≠ "" ∧ keywordHit (checkTextOf w) = true))

/-- Check 3 of `predict`: persistent corner watermark with confidence `>= 0.85`
and matching text, without requiring `generator_hint`. -/
def wmCheck3 (w : Watermark) : Prop :=
  w.persistent = true ∧ w.corner = true ∧ w.confidence ≥ 0.85 ∧
    checkTextOf w ≠ "" ∧ keywordHit (checkTextOf w) = true

/-- The `final_check` safeguard before the hard watermark override returns. -/
def wmFinalCheck (w : Watermark) : Prop :=
  (wmTextOf w ≠ "" ∨ rawTextOf w ≠ "") ∨
    (w.generator_hint = true ∧ w.confidence ≥ 0.85)

/-- The full condition under which `predict` returns `HARD_AI_MIN_PROB`
immediately for a generator watermark: the watermark must be detected, must
not be an empty detection (no text fields and no hint), one of the three
checks must confirm it, and the final safeguard must pass. -/
def GeneratorWMFires (w : Watermark) : Prop :=
  w.detected = true ∧
    ¬(w.watermark = none ∧ w.text = none ∧ w.generator_hint = false) ∧
    (wmCheck1 w ∨ wmCheck2 w ∨ wmCheck3 w) ∧ wmFinalCheck w

/-- The count of "strong" independent branches in `predict`. -/
noncomputable def strongCount (b : Bundle) : ℕ :=
  (if b.watermark.detected = true ∧ b.watermark.persistent = true ∧
      b.watermark.corner = true ∧ b.watermark.confidence ≥ 0.85 then 1 else 0)
  + (if b.scene_logic.flag = true ∧ b.scene_logic.confidence ≥ 0.8 then 1 else 0)
  + (if b.artifact_analysis.freq_artifact_score ≥ 0.8 ∨
        b.artifact_analysis.edge_artifact_score ≥ 0.8 then 1 else 0)
  + (if anatomyMax b ≥ 0.85 then 1 else 0)
  + (if b.temporal.oddity_score ≥ 0.8 ∨ b.temporal.rppg_score ≥ 0.8 then 1 else 0)

/-- `DeepfakeFusion.predict` in the shipped configuration (rule-based model, no
calibration file): a confirmed generator watermark short-circuits to
`HARD_AI_MIN_PROB`; otherwise the rule-based probability is boosted, and —
unless hard AI evidence (a strong scene-logic break) is present — the
independence rule and the low-quality cap are applied before final clipping. -/
noncomputable def predictProb (mw : String → ℝ) (b : Bundle) : ℝ :=
  if GeneratorWMFires b.watermark then HARD_AI_MIN_PROB
  else
    let p0 := fuse_rule_based mw b
    let p1 := applyHardEvidenceBoosts p0 b
    if HasStrongLogicBreak b then clip p1 0 1
    else
      let s := strongCount b
      let p2 := if p1 > 0.90 ∧ s < 2 then 0.90 else p1
      let p3 := if b.quality.status = "low" ∧ s ≤ 1 then min p2 0.75 else p2
      clip p3 0 1

/-- The real-evidence override fires during a `predict` run. -/
def PredictOverrideFires (mw : String → ℝ) (b : Bundle) : Prop :=
  ¬GeneratorWMFires b.watermark ∧
    RealEvidenceOverrideApplied (fuse_rule_based mw b) b

/-- The independence rule clamps the probability during a `predict` run. -/
def IndependenceCapApplied (mw : String → ℝ) (b : Bundle) : Prop :=
  ¬GeneratorWMFires b.watermark ∧ ¬HasStrongLogicBreak b ∧
    applyHardEvidenceBoosts (fuse_rule_based mw b) b > 0.90 ∧ strongCount b < 2

/-- The quality-conditioned cap branch executes during a `predict` run. -/
def QualityCapApplied (_mw : String → ℝ) (b : Bundle) : Prop :=
  ¬GeneratorWMFires b.watermark ∧ ¬HasStrongLogicBreak b ∧
    b.quality.status = "low" ∧ strongCount b ≤ 1

/-- The fields of a stored detection's `features` JSON that
`_extract_metric_contributions` reads. -/
structure FeaturesQ where
  wm_detected : Bool
  wm_confidence : ℚ
  face_detected : Bool
  face_num_tracks : ℚ
  flicker_score : ℚ
  prnu_score : ℚ
  codec_score : ℚ
  sync_score : ℚ
  edge_artifact_score : ℚ
  texture_inconsistency : ℚ
  color_anomaly_score : ℚ
  freq_artifact_score : ℚ
  mouth_exaggeration_score : ℚ
  mouth_static_score : ℚ
  eye_blink_anomaly : ℚ
  face_symmetry_drift : ℚ
  quality_status : String
  scene_incoherence_score : ℚ

/-- A row of the `detections` table (the columns `store_feedback` reads). -/
structure DetectionRow where
  verdict : String
  prob_ai : ℚ
  features : FeaturesQ
  feedback_received : Bool

/-- A row of the `feedback` table. -/
structure FeedbackRow where
  detection_id : String
  user_label : String
  notes : Option String

/-- The mutable store state. -/
structure StoreState where
  detections : String → Option DetectionRow
  feedback : List FeedbackRow
  metricStats : String → ℚ × ℚ

/-- Dict read: `d.get(k)`. -/
def alGet (l : List (String × ℚ)) (k : String) : Option ℚ :=
  (l.find? (fun p => p.1 == k)).map Prod.snd

/-- Dict write `d[k] = v`: update in place if the key exists, else append
(Python dicts preserve insertion order). -/
def alSet (l : List (String × ℚ)) (k : String) (v : ℚ) : List (String × ℚ) :=
  if (l.find? (fun p => p.1 == k)).isSome
  then l.map (fun p => if p.1 == k then (p.1, v) else p)
  else l ++ [(k, v)]

/-- `_extract_metric_contributions`, in source order. -/
def extractMetricContributions (f : FeaturesQ) : List (String × ℚ) :=
  (if f.wm_detected then [("watermark", f.wm_confidence)] else [])
  ++ (if f.face_detected then [("face_analysis", min 1 (f.face_num_tracks / 5))] else [])
  ++ [ ("forensics_flicker", f.flicker_score),
       ("forensics_prnu", 1 - f.prnu_score),
       ("forensics_codec", f.codec_score),
       ("audio_sync", 1 - f.sync_score),
       ("edge_artifacts", f.edge_artifact_score),
       ("texture_inconsistency", f.texture_inconsistency),
       ("color_anomaly", f.color_anomaly_score),
       ("freq_artifacts", f.freq_artifact_score),
       ("mouth_exaggeration", f.mouth_exaggeration_score),
       ("mouth_static", f.mouth_static_score),
       ("eye_blink", f.eye_blink_anomaly),
       ("face_symmetry", f.face_symmetry_drift) ]
  ++ (if f.quality_status = "low" then [("low_quality_flag", (0.6 : ℚ))] else [])
  ++ [("scene_logic", f.scene_incoherence_score)]

/-- `keyword_map` of `_note_adjustments`, in source order. -/
def noteKeywordMap : List (String × String) :=
  [("mouth", "mouth_exaggeration"), ("lip", "mouth_static"),
   ("blink", "eye_blink"), ("eye", "eye_blink"),
   ("hand", "face_symmetry"), ("finger", "face_symmetry"),
   ("blur", "low_quality_flag"), ("lighting", "color_anomaly"),
   ("color", "color_anomaly"), ("edge", "edge_artifacts"),
   ("texture", "texture_inconsistency"), ("audio", "audio_sync")]

/-- `_note_adjustments`: keyword mentions boost specific metrics by 0.15. -/
def noteAdjustments (notes : Option String) : List (String × ℚ) :=
  match notes with
  | none => []
  | some n =>
    if n = "" then []
    else
      let lowered := n.map Char.toLower
      noteKeywordMap.foldl
        (fun acc kv =>
          if strHasSub kv.1 lowered
          then alSet acc kv.2 (max ((alGet acc kv.2).getD 0) 0.15)
          else acc)
        []

/-- Note preprocessing at the top of `store_feedback`: a truthy note is
stripped and truncated to 500 characters. -/
def normalizeNotes : Option String → Option String
  | none => none
  | some n =>
    if n = "" then some n
    else
      let t := n.trim
      some (if t.length > 500 then t.take 500 else t)

/-- `store_feedback(detection_id, user_label, notes)`: returns the new state
and the boolean result.  Unknown id → `(s, false)`; already-processed feedback
→ `(s, true)`; otherwise inserts the feedback row, sets `feedback_received`,
and upserts `correct/incorrect` counter increments for every contributing
metric, each clamped to a contribution weight in `[0, 1]`. -/
def store_feedback (s : StoreState) (detection_id user_label : String)
    (notes : Option String) : StoreState × Bool :=
  let notes := normalizeNotes notes
  match s.detections detection_id with
  | none => (s, false)
  | some row =>
    if row.feedback_received then (s, true)
    else
      let correct : ℚ := if user_label.toLower = row.verdict.toLower then 1 else 0
      let incorrect : ℚ := 1 - correct
      let base := extractMetricContributions row.features
      let noteM := noteAdjustments notes
      let metrics := noteM.foldl
        (fun acc kv => alSet acc kv.1 ((alGet acc kv.1).getD 0 + kv.2)) base
      let stats := metrics.foldl
        (fun st kv =>
          let w := min 1 (max 0 kv.2)
          fun m => if m = kv.1
            then ((st m).1 + correct * w, (st m).2 + incorrect * w)
            else st m)
        s.metricStats
      ({ detections := fun i => if i = detection_id
           then some { row with feedback_received := true } else s.detections i,
         feedback := s.feedback ++ [⟨detection_id, user_label, notes⟩],
         metricStats := stats }, true)

/-- The per-row weight computation inside `get_metric_weights`:  neutral 1.0
when no feedback, otherwise a Laplace-smoothed reliability expanded by a
log-volume factor and clamped to `[0.3, 2.2]`. -/
noncomputable def metricWeight (correct incorrect : ℝ) : ℝ :=
  let total := correct + incorrect
  if total > 0 then
    let reliability := (correct + 1) / (total + 2)
    let logFactor := max 0.5 (min 1.5
      (0.5 + 0.5 * (Real.logb 10 (total + 10) / Real.logb 10 100)))
    max 0.3 (min 2.2 (1 + (reliability - 0.5) * 2 * logFactor))
  else 1

/-- `get_metric_weights()` as a total mapping: rows absent from
`metric_stats` read as `(0, 0)` and get the same neutral weight 1.0 that the
consumer's `metric_weights.get(metric, 1.0)` default supplies. -/
noncomputable def get_metric_weights (s : StoreState) : String → ℝ :=
  fun m => metricWeight ((s.metricStats m).1 : ℝ) ((s.metricStats m).2 : ℝ)

/-- Numerator (sum of `score * weight`) of the rule-based weighted average,
before the uniform low-quality factor (which cancels in the mean). -/
noncomputable def fuseNum (mw : String → ℝ) (b : Bundle) : ℝ :=
  (if b.watermark.detected then 0.75 * (0.4 * mw "watermark") else 0)
  + (if b.face_analysis.face_detected then 0.5 * (0.25 * mw "face_analysis") else 0)
  + (1 - b.forensics.prnu_score) * (0.2 * mw "forensics_prnu")
  + b.forensics.flicker_score *
      (0.18 * forensicsScale b.temporal.oddity_score * mw "forensics_flicker")
  + b.forensics.codec_score *
      (0.15 * forensicsScale b.temporal.oddity_score * mw "forensics_codec")
  + (1 - b.av_analysis.sync_score) * (0.12 * mw "audio_sync")
  + b.artifact_analysis.edge_artifact_score *
      (0.16 * artifactScale b.temporal.oddity_score * mw "edge_artifacts")
  + b.artifact_analysis.texture_inconsistency *
      (0.14 * artifactScale b.temporal.oddity_score * mw "texture_inconsistency")
  + b.artifact_analysis.color_anomaly_score *
      (0.1 * artifactScale b.temporal.oddity_score * mw "color_anomaly")
  + b.artifact_analysis.freq_artifact_score *
      (0.14 * artifactScale b.temporal.oddity_score * mw "freq_artifacts")
  + b.face_dynamics.mouth_exaggeration_score * (0.16 * mw "mouth_exaggeration")
  + b.face_dynamics.mouth_static_score * (0.14 * mw "mouth_static")
  + b.face_dynamics.eye_blink_anomaly * (0.12 * mw "eye_blink")
  + b.face_dynamics.face_symmetry_drift * (0.1 * mw "face_symmetry")
  + b.scene_logic.incoherence_score * (0.08 * mw "scene_logic")

/-- Denominator (sum of weights) of the rule-based weighted average. -/
noncomputable def fuseDen (mw : String → ℝ) (b : Bundle) : ℝ :=
  (if b.watermark.detected then 0.4 * mw "watermark" else 0)
  + (if b.face_analysis.face_detected then 0.25 * mw "face_analysis" else 0)
  + 0.2 * mw "forensics_prnu"
  + 0.18 * forensicsScale b.temporal.oddity_score * mw "forensics_flicker"
  + 0.15 * forensicsScale b.temporal.oddity_score * mw "forensics_codec"
  + 0.12 * mw "audio_sync"
  + 0.16 * artifactScale b.temporal.oddity_score * mw "edge_artifacts"
  + 0.14 * artifactScale b.temporal.oddity_score * mw "texture_inconsistency"
  + 0.1 * artifactScale b.temporal.oddity_score * mw "color_anomaly"
  + 0.14 * artifactScale b.temporal.oddity_score * mw "freq_artifacts"
  + 0.16 * mw "mouth_exaggeration"
  + 0.14 * mw "mouth_static"
  + 0.12 * mw "eye_blink"
  + 0.1 * mw "face_symmetry"
  + 0.08 * mw "scene_logic"

/-- An all-neutral evidence bundle (every score 0.5, all flags false). -/
noncomputable def neutralBundle : Bundle :=
  { watermark := ⟨false, 0, false, false, false, none, none⟩,
    face_analysis := ⟨false⟩,
    forensics := ⟨0.5, 0.5, 0.5⟩,
    av_analysis := ⟨0.5⟩,
    artifact_analysis := ⟨0.5, 0.5, 0.5, 0.5⟩,
    face_dynamics := ⟨0.5, 0.5, 0.5, 0.5⟩,
    scene_logic := ⟨false, 0.5, 0⟩,
    temporal := ⟨0.5, 0.5⟩,
    quality := ⟨"good"⟩ }

/-- The watermark's effective text is nonempty and matches a strict generator
keyword. -/
def WatermarkTextMatches (w : Watermark) : Prop :=
  checkTextOf w ≠ "" ∧ keywordHit (checkTextOf w) = true

/-- A verified generator watermark with `generator_hint` set. -/
def gwWatermark : Watermark := ⟨true, 0.9, true, true, true, some "SORA", none⟩

/-- Bundle carrying `gwWatermark` over otherwise neutral evidence. -/
noncomputable def gwBundle : Bundle := { neutralBundle with watermark := gwWatermark }

/-- The claim's original precondition without `generator_hint`:
confidence 0.75, persistent, corner, matching text. -/
def c1Watermark : Watermark := ⟨true, 0.75, true, true, false, some "SORA", none⟩

/-- Counterexample bundle for C1 as originally stated. -/
noncomputable def c1Bundle : Bundle := { neutralBundle with watermark := c1Watermark }

/-- A bundle whose only non-neutral signal is a strong scene-logic break. -/
noncomputable def c5Bundle : Bundle :=
  { neutralBundle with scene_logic := ⟨true, 0.9, 0.9⟩ }

/-- The aggregation exactly as the C6 claim words it: the step-function scale
multiplies the four visual-artifact base weights and the two codec/flicker
forensic base weights unconditionally before the weighted mean. -/
noncomputable def fuseClaimC6 (mw : String → ℝ) (b : Bundle) : ℝ :=
  let scale := artifactScale b.temporal.oddity_score
  clip (((if b.watermark.detected then 0.75 * (0.4 * mw "watermark") else 0)
      + (if b.face_analysis.face_detected then 0.5 * (0.25 * mw "face_analysis") else 0)
      + (1 - b.forensics.prnu_score) * (0.2 * mw "forensics_prnu")
      + b.forensics.flicker_score * (0.18 * scale * mw "forensics_flicker")
      + b.forensics.codec_score * (0.15 * scale * mw "forensics_codec")
      + (1 - b.av_analysis.sync_score) * (0.12 * mw "audio_sync")
      + b.artifact_analysis.edge_artifact_score * (0.16 * scale * mw "edge_artifacts")
      + b.artifact_analysis.texture_inconsistency * (0.14 * scale * mw "texture_inconsistency")
      + b.artifact_analysis.color_anomaly_score * (0.1 * scale * mw "color_anomaly")
      + b.artifact_analysis.freq_artifact_score * (0.14 * scale * mw "freq_artifacts")
      + b.face_dynamics.mouth_exaggeration_score * (0.16 * mw "mouth_exaggeration")
      + b.face_dynamics.mouth_static_score * (0.14 * mw "mouth_static")
      + b.face_dynamics.eye_blink_anomaly * (0.12 * mw "eye_blink")
      + b.face_dynamics.face_symmetry_drift * (0.1 * mw "face_symmetry")
      + b.scene_logic.incoherence_score * (0.08 * mw "scene_logic"))
    / ((if b.watermark.detected then 0.4 * mw "watermark" else 0)
      + (if b.face_analysis.face_detected then 0.25 * mw "face_analysis" else 0)
      + 0.2 * mw "forensics_prnu"
      + 0.18 * scale * mw "forensics_flicker"
      + 0.15 * scale * mw "forensics_codec"
      + 0.12 * mw "audio_sync"
      + 0.16 * scale * mw "edge_artifacts"
      + 0.14 * scale * mw "texture_inconsistency"
      + 0.1 * scale * mw "color_anomaly"
      + 0.14 * scale * mw "freq_artifacts"
      + 0.16 * mw "mouth_exaggeration"
      + 0.14 * mw "mouth_static"
      + 0.12 * mw "eye_blink"
      + 0.1 * mw "face_symmetry"
      + 0.08 * mw "scene_logic")) 0 1

/-- The aggregation as the amended C6 claim words it: the scale multiplies the
four visual-artifact weights unconditionally, but the codec/flicker weights
only when flow oddity is at most 0.30 (otherwise they stay unscaled). -/
noncomputable def fuseSpecC6Amended (mw : String → ℝ) (b : Bundle) : ℝ :=
  let scale := artifactScale b.temporal.oddity_score
  let fscale := if b.temporal.oddity_score ≤ 0.30 then artifactScale b.temporal.oddity_score else 1.0
  clip (((if b.watermark.detected then 0.75 * (0.4 * mw "watermark") else 0)
      + (if b.face_analysis.face_detected then 0.5 * (0.25 * mw "face_analysis") else 0)
      + (1 - b.forensics.prnu_score) * (0.2 * mw "forensics_prnu")
      + b.forensics.flicker_score * (0.18 * fscale * mw "forensics_flicker")
      + b.forensics.codec_score * (0.15 * fscale * mw "forensics_codec")
      + (1 - b.av_analysis.sync_score) * (0.12 * mw "audio_sync")
      + b.artifact_analysis.edge_artifact_score * (0.16 * scale * mw "edge_artifacts")
      + b.artifact_analysis.texture_inconsistency * (0.14 * scale * mw "texture_inconsistency")
      + b.artifact_analysis.color_anomaly_score * (0.1 * scale * mw "color_anomaly")
      + b.artifact_analysis.freq_artifact_score * (0.14 * scale * mw "freq_artifacts")
      + b.face_dynamics.mouth_exaggeration_score * (0.16 * mw "mouth_exaggeration")
      + b.face_dynamics.mouth_static_score * (0.14 * mw "mouth_static")
      + b.face_dynamics.eye_blink_anomaly * (0.12 * mw "eye_blink")
      + b.face_dynamics.face_symmetry_drift * (0.1 * mw "face_symmetry")
      + b.scene_logic.incoherence_score * (0.08 * mw "scene_logic"))
    / ((if b.watermark.detected then 0.4 * mw "watermark" else 0)
      + (if b.face_analysis.face_detected then 0.25 * mw "face_analysis" else 0)
      + 0.2 * mw "forensics_prnu"
      + 0.18 * fscale * mw "forensics_flicker"
      + 0.15 * fscale * mw "forensics_codec"
      + 0.12 * mw "audio_sync"
      + 0.16 * scale * mw "edge_artifacts"
      + 0.14 * scale * mw "texture_inconsistency"
      + 0.1 * scale * mw "color_anomaly"
      + 0.14 * scale * mw "freq_artifacts"
      + 0.16 * mw "mouth_exaggeration"
      + 0.14 * mw "mouth_static"
      + 0.12 * mw "eye_blink"
      + 0.1 * mw "face_symmetry"
      + 0.08 * mw "scene_logic")) 0 1

/-- Bundle with moderately smooth motion (oddity 0.32) and maximal
codec/flicker forensic scores. -/
noncomputable def c6Bundle : Bundle :=
  { neutralBundle with forensics := ⟨0.5, 1, 1⟩, temporal := ⟨0.32, 0.5⟩ }

/-- The ai-evidence raw scores of the C4 claim, minus flow oddity. -/
inductive AIScore where
  | flicker | codec | edge | texture | color | freq
  | mouthEx | mouthStatic | blink | symmetry | incoherence

/-- The real-evidence raw scores of the C4 claim. -/
inductive RealScore where
  | prnu | sync

/-- Update a single ai-evidence raw score of a bundle. -/
def setAI (b : Bundle) : AIScore → ℝ → Bundle
  | .flicker, v => { b with forensics := { b.forensics with flicker_score := v } }
  | .codec, v => { b with forensics := { b.forensics with codec_score := v } }
  | .edge, v => { b with artifact_analysis :=
      { b.artifact_analysis with edge_artifact_score := v } }
  | .texture, v => { b with artifact_analysis :=
      { b.artifact_analysis with texture_inconsistency := v } }
  | .color, v => { b with artifact_analysis :=
      { b.artifact_analysis with color_anomaly_score := v } }
  | .freq, v => { b with artifact_analysis :=
      { b.artifact_analysis with freq_artifact_score := v } }
  | .mouthEx, v => { b with face_dynamics :=
      { b.face_dynamics with mouth_exaggeration_score := v } }
  | .mouthStatic, v => { b with face_dynamics :=
      { b.face_dynamics with mouth_static_score := v } }
  | .blink, v => { b with face_dynamics :=
      { b.face_dynamics with eye_blink_anomaly := v } }
  | .symmetry, v => { b with face_dynamics :=
      { b.face_dynamics with face_symmetry_drift := v } }
  | .incoherence, v => { b with scene_logic :=
      { b.scene_logic with incoherence_score := v } }

/-- Update a single real-evidence raw score of a bundle. -/
def setReal (b : Bundle) : RealScore → ℝ → Bundle
  | .prnu, v => { b with forensics := { b.forensics with prnu_score := v } }
  | .sync, v => { b with av_analysis := { b.av_analysis with sync_score := v } }

/-- Update the flow-oddity score (the score C4 must exclude). -/
def setOddity (b : Bundle) (v : ℝ) : Bundle :=
  { b with temporal := { b.temporal with oddity_score := v } }

/-- Bundle with all four visual-artifact scores at 0 over neutral evidence. -/
noncomputable def c4Base : Bundle :=
  { neutralBundle with artifact_analysis := ⟨0, 0, 0, 0⟩ }

def witnessFeatures : FeaturesQ :=
  ⟨false, 0, false, 0, 0.5, 0.5, 0.5, 0.5, 0.5, 0.5, 0.5, 0.5,
   0.5, 0.5, 0.5, 0.5, "good", 0.5⟩

def witnessRow : DetectionRow := ⟨"AI", 0.9, witnessFeatures, false⟩

def witnessState : StoreState :=
  ⟨fun i => if i = "det1" then some witnessRow else none, [], fun _ => (0, 0)⟩

lemma clip_eq_self {x lo hi : ℝ} (h1 : lo ≤ x) (h2 : x ≤ hi) : clip x lo hi = x := by
  unfold clip; rw [max_eq_left h1, min_eq_left h2]

lemma clip_le_clip {x y lo hi : ℝ} (h : x ≤ y) : clip x lo hi ≤ clip y lo hi :=
  min_le_min (max_le_max h le_rfl) le_rfl

lemma clip_le_hi (x lo hi : ℝ) : clip x lo hi ≤ hi := min_le_right _ _

lemma lo_le_clip {x lo hi : ℝ} (h : lo ≤ hi) : lo ≤ clip x lo hi :=
  le_min (le_max_right _ _) h

/-- Round-tripping a probability through logit space is the identity on the
clamp range. -/
lemma toProb_toLogit {p : ℝ} (h1 : 1e-6 ≤ p) (h2 : p ≤ 1 - 1e-6) :
    toProb (toLogit p) = p := by
  have hp : 0 < p := lt_of_lt_of_le (by norm_num) h1
  have hp1 : 0 < 1 - p := by nlinarith
  unfold toProb toLogit
  rw [clip_eq_self h1 h2, Real.exp_neg, Real.exp_log (div_pos hp hp1), inv_div]
  field_simp

lemma toProb_mono {z w : ℝ} (h : z ≤ w) : toProb z ≤ toProb w := by
  unfold toProb
  have he : Real.exp (-w) ≤ Real.exp (-z) := Real.exp_le_exp.mpr (by linarith)
  have h1 : (0:ℝ) < 1 + Real.exp (-w) := by positivity
  exact one_div_le_one_div_of_le h1 (by linarith)

lemma toProb_pos (z : ℝ) : 0 < toProb z := by
  unfold toProb; positivity

lemma toProb_lt_one (z : ℝ) : toProb z < 1 := by
  unfold toProb
  have he : 0 < Real.exp (-z) := Real.exp_pos _
  rw [div_lt_one (by positivity)]
  linarith

lemma toLogit_mono {p q : ℝ} (h : p ≤ q) : toLogit p ≤ toLogit q := by
  unfold toLogit
  set a := clip p (1e-6) (1 - 1e-6) with ha
  set b := clip q (1e-6) (1 - 1e-6) with hb
  have hab : a ≤ b := clip_le_clip h
  have ha0 : (1e-6 : ℝ) ≤ a := lo_le_clip (by norm_num)
  have ha1 : a ≤ 1 - 1e-6 := clip_le_hi _ _ _
  have hb0 : (1e-6 : ℝ) ≤ b := lo_le_clip (by norm_num)
  have hb1 : b ≤ 1 - 1e-6 := clip_le_hi _ _ _
  have hap : 0 < a := lt_of_lt_of_le (by norm_num) ha0
  have ha1p : 0 < 1 - a := by nlinarith
  have hbp : 0 < b := lt_of_lt_of_le (by norm_num) hb0
  have hb1p : 0 < 1 - b := by nlinarith
  apply Real.log_le_log (div_pos hap ha1p)
  rw [div_le_div_iff ha1p hb1p]
  nlinarith

lemma scaled_pairs_num (c : ℝ) (l : List (ℝ × ℝ)) :
    ((l.map (fun p => (p.1, p.2 * c))).map (fun p => p.1 * p.2)).sum
      = c * (l.map (fun p => p.1 * p.2)).sum := by
  induction l with
  | nil => simp
  | cons a t ih =>
    simp only [List.map_cons, List.sum_cons, List.map_map] at ih ⊢
    rw [ih]; ring

lemma scaled_pairs_den (c : ℝ) (l : List (ℝ × ℝ)) :
    ((l.map (fun p => (p.1, p.2 * c))).map Prod.snd).sum
      = c * (l.map Prod.snd).sum := by
  induction l with
  | nil => simp
  | cons a t ih =>
    simp only [List.map_cons, List.sum_cons, List.map_map] at ih ⊢
    rw [ih]; ring

lemma fusePairs_num (mw : String → ℝ) (b : Bundle) :
    ((fusePairs mw b).map (fun p => p.1 * p.2)).sum = fuseNum mw b := by
  unfold fusePairs fuseNum
  by_cases hw : b.watermark.detected <;>
    by_cases hf : b.face_analysis.face_detected <;>
    simp [hw, hf] <;> ring

lemma fusePairs_den (mw : String → ℝ) (b : Bundle) :
    ((fusePairs mw b).map Prod.snd).sum = fuseDen mw b := by
  unfold fusePairs fuseDen
  by_cases hw : b.watermark.detected <;>
    by_cases hf : b.face_analysis.face_detected <;>
    simp [hw, hf] <;> ring

lemma fusePairs_ne_nil (mw : String → ℝ) (b : Bundle) : fusePairs mw b ≠ [] := by
  unfold fusePairs
  by_cases hw : b.watermark.detected <;>
    by_cases hf : b.face_analysis.face_detected <;>
    simp [hw, hf]

/-- The rule-based fusion is the clipped ratio of `fuseNum` and `fuseDen`;
the uniform 0.85 low-quality weight factor cancels in the mean. -/
lemma fuse_eq (mw : String → ℝ) (b : Bundle) :
    fuse_rule_based mw b = clip (fuseNum mw b / fuseDen mw b) 0 1 := by
  simp only [fuse_rule_based]
  by_cases hq : b.quality.status = "low"
  · rw [if_pos hq]
    have hne : (fusePairs mw b).map (fun p => (p.1, p.2 * 0.85)) ≠ [] := by
      intro hcon
      exact fusePairs_ne_nil mw b (List.map_eq_nil.mp hcon)
    rw [if_neg hne, scaled_pairs_num, scaled_pairs_den,
      mul_div_mul_left _ _ (by norm_num : (0.85:ℝ) ≠ 0),
      fusePairs_num, fusePairs_den]
  · rw [if_neg hq, if_neg (fusePairs_ne_nil mw b), fusePairs_num, fusePairs_den]

/-- C3: for every metric row with nonnegative counters, `get_metric_weights`
computes weight 1.0 when `correct + incorrect = 0` and otherwise the clamped
Laplace-smoothed, log-volume-scaled formula; the result always lies in
`[0.3, 2.2]`. -/
theorem C3_metric_weight_formula (c i : ℝ) (hc : 0 ≤ c) (hi : 0 ≤ i) :
    (c + i = 0 → metricWeight c i = 1) ∧
    (c + i ≠ 0 → metricWeight c i =
      max 0.3 (min 2.2 (1 + ((c + 1) / (c + i + 2) - 0.5) * 2 *
        max 0.5 (min 1.5
          (0.5 + 0.5 * (Real.logb 10 (c + i + 10) / Real.logb 10 100)))))) ∧
    0.3 ≤ metricWeight c i ∧ metricWeight c i ≤ 2.2 := by
  refine ⟨?_, ?_, ?_, ?_⟩
  · intro h
    simp only [metricWeight]
    rw [if_neg]
    rw [h]
    exact lt_irrefl 0
  · intro h
    have hpos : 0 < c + i := lt_of_le_of_ne (by linarith) (Ne.symm h)
    simp only [metricWeight]
    rw [if_pos hpos]
  · simp only [metricWeight]
    by_cases hpos : 0 < c + i
    · rw [if_pos hpos]; exact le_max_left _ _
    · rw [if_neg hpos]; norm_num
  · simp only [metricWeight]
    by_cases hpos : 0 < c + i
    · rw [if_pos hpos]
      exact max_le (by norm_num) (min_le_left _ _)
    · rw [if_neg hpos]; norm_num

/-- Witness for C3 at counters `(3, 1)`. -/
theorem C3_metric_weight_formula_witness :
    (0:ℝ) ≤ 3 ∧ (0:ℝ) ≤ 1 ∧ 0.3 ≤ metricWeight 3 1 ∧ metricWeight 3 1 ≤ 2.2 :=
  ⟨by norm_num, by norm_num,
   (C3_metric_weight_formula 3 1 (by norm_num) (by norm_num)).2.2.1,
   (C3_metric_weight_formula 3 1 (by norm_num) (by norm_num)).2.2.2⟩

/-- C2: with no verified generator watermark, no strong scene-logic break, and
fewer than two strong branches, `predict` never returns more than 0.90. -/
theorem C2_independence_invariant (mw : String → ℝ) (b : Bundle)
    (hgw : ¬GeneratorWMFires b.watermark) (hslb : ¬HasStrongLogicBreak b)
    (hstrong : strongCount b < 2) :
    predictProb mw b ≤ 0.90 := by
  simp only [predictProb]
  rw [if_neg hgw, if_neg hslb]
  set p1 := applyHardEvidenceBoosts (fuse_rule_based mw b) b with hp1
  have h2 : (if p1 > 0.90 ∧ strongCount b < 2 then (0.90:ℝ) else p1) ≤ 0.90 := by
    by_cases hc : p1 > 0.90 ∧ strongCount b < 2
    · rw [if_pos hc]
    · rw [if_neg hc]
      by_cases hgt : p1 > 0.90
      · exact absurd ⟨hgt, hstrong⟩ hc
      · exact not_lt.mp hgt
  set p2 := if p1 > 0.90 ∧ strongCount b < 2 then (0.90:ℝ) else p1 with hp2
  have h3 : (if b.quality.status = "low" ∧ strongCount b ≤ 1
      then min p2 0.75 else p2) ≤ 0.90 := by
    by_cases hc : b.quality.status = "low" ∧ strongCount b ≤ 1
    · rw [if_pos hc]; exact le_trans (min_le_left _ _) h2
    · rw [if_neg hc]; exact h2
  exact le_trans (min_le_left _ _) (max_le h3 (by norm_num))

lemma neutral_no_gw : ¬GeneratorWMFires neutralBundle.watermark := by
  intro h
  have := h.1
  simp [neutralBundle] at this

lemma neutral_no_slb : ¬HasStrongLogicBreak neutralBundle := by
  intro h
  have := h.1
  simp [neutralBundle, HasStrongLogicBreak] at this

lemma neutral_strongCount : strongCount neutralBundle = 0 := by
  norm_num [strongCount, anatomyMax, neutralBundle]

/-- Witness for C2 at the all-neutral bundle with unit adaptive weights. -/
theorem C2_independence_invariant_witness :
    strongCount neutralBundle < 2 ∧
    predictProb (fun _ => 1) neutralBundle ≤ 0.90 :=
  ⟨by rw [neutral_strongCount]; norm_num,
   C2_independence_invariant (fun _ => 1) neutralBundle neutral_no_gw
     neutral_no_slb (by rw [neutral_strongCount]; norm_num)⟩

/-- A detected, persistent, corner-located watermark with matching text and
confidence at least 0.75 passes the generator-watermark gate in `predict`,
provided `generator_hint` is set or the confidence reaches 0.85. -/
lemma generatorWM_of_verified (w : Watermark)
    (h1 : w.detected = true) (h2 : w.persistent = true) (h3 : w.corner = true)
    (h4 : w.confidence ≥ 0.75) (h5 : WatermarkTextMatches w)
    (h6 : w.generator_hint = true ∨ w.confidence ≥ 0.85) :
    GeneratorWMFires w := by
  obtain ⟨hct, hkw⟩ := h5
  have hnn : ¬(w.watermark = none ∧ w.text = none ∧ w.generator_hint = false) := by
    rintro ⟨hwn, htn, -⟩
    apply hct
    have hwmT : wmTextOf w = "" := by rw [wmTextOf, hwn]; rfl
    have hrawT : rawTextOf w = "" := by rw [rawTextOf, htn]; rfl
    rw [checkTextOf, hwmT, hrawT]
    simp
  have hfin : wmFinalCheck w := by
    by_cases hwmT : wmTextOf w ≠ ""
    · exact Or.inl (Or.inl hwmT)
    · refine Or.inl (Or.inr ?_)
      rw [checkTextOf, if_neg hwmT] at hct
      exact hct
  have hchecks : wmCheck1 w ∨ wmCheck2 w ∨ wmCheck3 w := by
    rcases h6 with hh | hc
    · exact Or.inl ⟨hh, h4, h2, hct, hkw⟩
    · exact Or.inr (Or.inr ⟨h2, h3, hc, hct, hkw⟩)
  exact ⟨h1, hnn, hchecks, hfin⟩

/-- C1 (amended): a verified generator watermark — detected, persistent,
corner-located, confidence ≥ 0.75, matching text, and additionally either the
`generator_hint` flag or confidence ≥ 0.85 — makes `predict` return at least
`HARD_AI_MIN_PROB` regardless of every other signal, and neither the
independence rule, the quality cap, nor the real-evidence override is applied
in that run. -/
theorem C1_verified_watermark_forces_min_prob (mw : String → ℝ) (b : Bundle)
    (h1 : b.watermark.detected = true) (h2 : b.watermark.persistent = true)
    (h3 : b.watermark.corner = true) (h4 : b.watermark.confidence ≥ 0.75)
    (h5 : WatermarkTextMatches b.watermark)
    (h6 : b.watermark.generator_hint = true ∨ b.watermark.confidence ≥ 0.85) :
    predictProb mw b ≥ HARD_AI_MIN_PROB ∧
    ¬IndependenceCapApplied mw b ∧ ¬QualityCapApplied mw b ∧
    ¬PredictOverrideFires mw b := by
  have hgw := generatorWM_of_verified _ h1 h2 h3 h4 h5 h6
  refine ⟨?_, fun h => h.1 hgw, fun h => h.1 hgw, fun h => h.1 hgw⟩
  simp only [predictProb]
  rw [if_pos hgw]

/-- Witness for C1 at a concrete Sora-watermarked bundle. -/
theorem C1_verified_watermark_forces_min_prob_witness :
    WatermarkTextMatches gwBundle.watermark ∧
    predictProb (fun _ => 1) gwBundle ≥ HARD_AI_MIN_PROB :=
  ⟨⟨by decide, by decide⟩,
   (C1_verified_watermark_forces_min_prob (fun _ => 1) gwBundle rfl rfl rfl
     (by norm_num [gwBundle, gwWatermark]) ⟨by decide, by decide⟩
     (Or.inl rfl)).1⟩

lemma c1_no_gw : ¬GeneratorWMFires c1Bundle.watermark := by
  rintro ⟨-, -, hchecks, -⟩
  rcases hchecks with h | h | h
  · have := h.1
    simp [c1Bundle, c1Watermark] at this
  · have := h.1
    simp [c1Bundle, c1Watermark] at this
  · have := h.2.2.1
    rw [show c1Bundle.watermark.confidence = 0.75 from rfl] at this
    norm_num at this

lemma c1_no_slb : ¬HasStrongLogicBreak c1Bundle := by
  intro h
  have := h.1
  simp [c1Bundle, neutralBundle, HasStrongLogicBreak] at this

lemma c1_fuse : fuse_rule_based (fun _ => 1) c1Bundle = 239 / 438 := by
  rw [fuse_eq]
  have hval : fuseNum (fun _ => 1) c1Bundle / fuseDen (fun _ => 1) c1Bundle
      = 239 / 438 := by
    norm_num [fuseNum, fuseDen, c1Bundle, c1Watermark, neutralBundle,
      forensicsScale, artifactScale]
  rw [hval]
  exact clip_eq_self (by norm_num) (by norm_num)

lemma c1_boosts :
    applyHardEvidenceBoosts (239 / 438) c1Bundle = 239 / 438 := by
  have hcalm : calmAdjust c1Bundle = 0 := by
    norm_num [calmAdjust, c1Bundle, neutralBundle]
  have hbonus : hardBonus c1Bundle = 0 := by
    have hno : ¬HasLogicBreak c1Bundle := by
      intro h
      have := h.1
      simp [c1Bundle, neutralBundle, HasLogicBreak] at this
    have hana : ¬HasAnatomy c1Bundle := by
      intro h
      rw [HasAnatomy, anatomyMax] at h
      norm_num [c1Bundle, neutralBundle] at h
    simp [hardBonus, c1_no_slb, hno, hana]
  have hafter : pAfterBoosts (239 / 438) c1Bundle = 239 / 438 := by
    rw [pAfterBoosts, hcalm, hbonus]
    norm_num
    exact toProb_toLogit (by norm_num) (by norm_num)
  rw [applyHardEvidenceBoosts, if_neg c1_no_slb, hafter, if_neg]
  rintro ⟨h4le, -⟩
  norm_num [realEvidenceCount, c1Bundle, neutralBundle] at h4le

/-- Counterexample to C1 as stated: a detected, persistent, corner-located
watermark with confidence exactly 0.75 and matching text `SORA`, but without
`generator_hint`, fails every generator check (check 3 needs confidence 0.85)
and `predict` returns about 0.546, well below `HARD_AI_MIN_PROB`. -/
theorem C1_counterexample :
    c1Bundle.watermark.detected = true ∧ c1Bundle.watermark.persistent = true ∧
    c1Bundle.watermark.corner = true ∧ c1Bundle.watermark.confidence ≥ 0.75 ∧
    WatermarkTextMatches c1Bundle.watermark ∧
    predictProb (fun _ => 1) c1Bundle < HARD_AI_MIN_PROB := by
  refine ⟨rfl, rfl, rfl, by norm_num [c1Bundle, c1Watermark],
    ⟨by decide, by decide⟩, ?_⟩
  simp only [predictProb]
  rw [if_neg c1_no_gw, if_neg c1_no_slb, c1_fuse, c1_boosts]
  have hlt : ¬((239 : ℝ) / 438 > 0.90 ∧ strongCount c1Bundle < 2) := by
    rintro ⟨hgt, -⟩
    norm_num at hgt
  rw [if_neg hlt]
  have hq : ¬(c1Bundle.quality.status = "low" ∧ strongCount c1Bundle ≤ 1) := by
    rintro ⟨hqs, -⟩
    simp [c1Bundle, neutralBundle] at hqs
  rw [if_neg hq, clip_eq_self (by norm_num) (by norm_num)]
  norm_num [HARD_AI_MIN_PROB]

/-- C5 (amended): the real-evidence override fires iff no hard AI evidence
(strong scene-logic break), at least 4 of the 5 calming criteria, and a
post-boost probability above 0.75; when it fires, the adjusted probability is
exactly 0.65; otherwise, without hard AI evidence the post-boost probability
is returned unchanged, while with hard AI evidence the function returns
`max(post-boost, HARD_AI_MIN_PROB)`. -/
theorem C5_override_characterization (p : ℝ) (b : Bundle) :
    (RealEvidenceOverrideApplied p b → applyHardEvidenceBoosts p b = 0.65) ∧
    (¬HasStrongLogicBreak b → ¬RealEvidenceOverrideApplied p b →
      applyHardEvidenceBoosts p b = pAfterBoosts p b) ∧
    (HasStrongLogicBreak b →
      applyHardEvidenceBoosts p b = max (pAfterBoosts p b) HARD_AI_MIN_PROB) ∧
    (RealEvidenceOverrideApplied p b ↔
      (¬HasStrongLogicBreak b ∧ 4 ≤ realEvidenceCount b ∧
        pAfterBoosts p b > 0.75)) := by
  refine ⟨?_, ?_, ?_, Iff.rfl⟩
  · rintro ⟨hns, h4, hgt⟩
    rw [applyHardEvidenceBoosts, if_neg hns, if_pos ⟨h4, hgt⟩]
  · intro hns hno
    rw [applyHardEvidenceBoosts, if_neg hns, if_neg]
    intro hc
    exact hno ⟨hns, hc.1, hc.2⟩
  · intro hs
    rw [applyHardEvidenceBoosts, if_pos hs]

lemma c5_slb : HasStrongLogicBreak c5Bundle :=
  ⟨rfl, by norm_num [c5Bundle], by norm_num [c5Bundle]⟩

lemma exp_five_lt : Real.exp 5 < 1881 := by
  have h5 : Real.exp 5 = Real.exp 1 ^ 5 := by
    rw [← Real.exp_nat_mul]
    norm_num
  rw [h5]
  calc Real.exp 1 ^ 5 ≤ 2.7182818286 ^ 5 :=
        pow_le_pow_left (Real.exp_pos 1).le Real.exp_one_lt_d9.le 5
    _ < 1881 := by norm_num

lemma c5_pAfter_lt : pAfterBoosts (1/100) c5Bundle < HARD_AI_MIN_PROB := by
  have hcalm : calmAdjust c5Bundle = 0 := by
    norm_num [calmAdjust, c5Bundle, neutralBundle]
  have hana : ¬HasAnatomy c5Bundle := by
    intro h
    rw [HasAnatomy, anatomyMax] at h
    norm_num [c5Bundle, neutralBundle] at h
  have hbonus : hardBonus c5Bundle = 5 := by
    simp [hardBonus, c5_slb, hana, LOGIC_BREAK_STRONG_LOGIT_BONUS]
    norm_num
  have hlogit : toLogit (1/100) = -Real.log 99 := by
    simp only [toLogit]
    rw [clip_eq_self (by norm_num) (by norm_num)]
    rw [show (1/100 : ℝ)/(1 - 1/100) = (99:ℝ)⁻¹ by norm_num, Real.log_inv]
  have hz : toLogit (1/100) + calmAdjust c5Bundle + hardBonus c5Bundle
      = 5 - Real.log 99 := by
    rw [hlogit, hcalm, hbonus]; ring
  rw [pAfterBoosts, hz]
  have hexp : Real.exp (Real.log 99 - 5) = 99 * Real.exp (-5) := by
    rw [Real.exp_sub, Real.exp_log (by norm_num : (0:ℝ) < 99), Real.exp_neg,
      div_eq_mul_inv]
  have hinv : (1:ℝ)/1881 < 1/Real.exp 5 :=
    one_div_lt_one_div_of_lt (Real.exp_pos 5) exp_five_lt
  have ht : (1:ℝ)/19 < 99 * Real.exp (-5) := by
    rw [Real.exp_neg, ← one_div]
    nlinarith [hinv]
  have hden : (20:ℝ)/19 < 1 + 99 * Real.exp (-5) := by linarith
  calc toProb (5 - Real.log 99) = 1/(1 + 99 * Real.exp (-5)) := by
        rw [toProb, show -(5 - Real.log 99) = Real.log 99 - 5 by ring, hexp]
    _ < 1/(20/19) := one_div_lt_one_div_of_lt (by norm_num) hden
    _ ≤ HARD_AI_MIN_PROB := by rw [HARD_AI_MIN_PROB]; norm_num

/-- Counterexample to C5 as stated: with a strong scene-logic break and a low
incoming probability, the override does not fire, yet the returned value is
`max(post-boost, 0.95) = 0.95`, not the post-boost probability unchanged. -/
theorem C5_counterexample :
    ¬RealEvidenceOverrideApplied (1/100) c5Bundle ∧
    applyHardEvidenceBoosts (1/100) c5Bundle ≠ pAfterBoosts (1/100) c5Bundle := by
  constructor
  · rintro ⟨hns, -, -⟩
    exact hns c5_slb
  · rw [applyHardEvidenceBoosts, if_pos c5_slb,
      max_eq_right c5_pAfter_lt.le]
    exact fun h => absurd (h ▸ c5_pAfter_lt) (lt_irrefl _)

/-- Witness for C5 applying the hard-evidence branch at the concrete
strong-break bundle. -/
theorem C5_override_characterization_witness :
    applyHardEvidenceBoosts (1/100) c5Bundle
      = max (pAfterBoosts (1/100) c5Bundle) HARD_AI_MIN_PROB :=
  (C5_override_characterization (1/100) c5Bundle).2.2.1 c5_slb

lemma c6_fuse : fuse_rule_based (fun _ => 1) c6Bundle = 89 / 148 := by
  rw [fuse_eq]
  have hval : fuseNum (fun _ => 1) c6Bundle / fuseDen (fun _ => 1) c6Bundle
      = 89 / 148 := by
    norm_num [fuseNum, fuseDen, c6Bundle, neutralBundle, forensicsScale,
      artifactScale]
  rw [hval]
  exact clip_eq_self (by norm_num) (by norm_num)

lemma c6_claim_value : fuseClaimC6 (fun _ => 1) c6Bundle = 80 / 139 := by
  have hval : fuseClaimC6 (fun _ => 1) c6Bundle = clip (80 / 139) 0 1 := by
    simp only [fuseClaimC6]
    norm_num [c6Bundle, neutralBundle, artifactScale]
  rw [hval]
  exact clip_eq_self (by norm_num) (by norm_num)

/-- Counterexample to C6 as stated: at flow oddity 0.32 the source leaves the
codec/flicker weights unscaled (the gate `oddity <= 0.30` fails) while the
claim's formula scales them by 0.7, so the aggregates differ. -/
theorem C6_counterexample :
    fuse_rule_based (fun _ => 1) c6Bundle ≠ fuseClaimC6 (fun _ => 1) c6Bundle := by
  rw [c6_fuse, c6_claim_value]
  norm_num

/-- C6 (amended): the step-function scale multiplies the four visual-artifact
base weights unconditionally, but the codec/flicker base weights only when
flow oddity ≤ 0.30; with that gate, the rule-based aggregation is exactly the
weighted arithmetic mean described by the claim. -/
theorem C6_amended_downweighting (mw : String → ℝ) (b : Bundle) :
    fuse_rule_based mw b = fuseSpecC6Amended mw b := by
  rw [fuse_eq]
  rfl

/-- Counterexample to C7 as stated: for a bundle carrying a verified generator
watermark and otherwise neutral evidence, the logit-space adjuster returns the
probability unchanged — it does not add the claimed ≈6.0-logit bonus, whose
application would yield a strictly larger value. -/
theorem C7_counterexample :
    GeneratorWMFires gwBundle.watermark ∧
    applyHardEvidenceBoosts (1/2) gwBundle = 1/2 ∧
    toProb (toLogit (1/2) + WATERMARK_GENERATOR_LOGIT_BONUS) ≠ 1/2 := by
  refine ⟨generatorWM_of_verified _ rfl rfl rfl (by norm_num [gwWatermark, gwBundle])
    ⟨by decide, by decide⟩ (Or.inl rfl), ?_, ?_⟩
  · have hslb : ¬HasStrongLogicBreak gwBundle := by
      intro h
      have := h.1
      simp [gwBundle, neutralBundle, HasStrongLogicBreak] at this
    have hlb : ¬HasLogicBreak gwBundle := by
      intro h
      have := h.1
      simp [gwBundle, neutralBundle, HasLogicBreak] at this
    have hana : ¬HasAnatomy gwBundle := by
      intro h
      rw [HasAnatomy, anatomyMax] at h
      norm_num [gwBundle, neutralBundle] at h
    have hcalm : calmAdjust gwBundle = 0 := by
      norm_num [calmAdjust, gwBundle, neutralBundle]
    have hbonus : hardBonus gwBundle = 0 := by
      simp [hardBonus, hslb, hlb, hana]
    have hafter : pAfterBoosts (1/2) gwBundle = 1/2 := by
      rw [pAfterBoosts, hcalm, hbonus]
      norm_num
      exact toProb_toLogit (by norm_num) (by norm_num)
    rw [applyHardEvidenceBoosts, if_neg hslb, hafter, if_neg]
    rintro ⟨h4le, -⟩
    norm_num [realEvidenceCount, gwBundle, neutralBundle] at h4le
  · have hlogit : toLogit (1/2) = 0 := by
      simp only [toLogit]
      rw [clip_eq_self (by norm_num) (by norm_num)]
      rw [show (1/2 : ℝ)/(1 - 1/2) = 1 by norm_num, Real.log_one]
    rw [hlogit, zero_add, toProb, WATERMARK_GENERATOR_LOGIT_BONUS]
    intro h
    have hexp : Real.exp (-(6.0:ℝ)) < 1 := by
      rw [Real.exp_lt_one_iff]
      norm_num
    have hpos : (0:ℝ) < 1 + Real.exp (-(6.0:ℝ)) := by positivity
    rw [div_eq_iff (ne_of_gt hpos)] at h
    nlinarith [Real.exp_pos (-(6.0:ℝ))]

/-- C7 (amended): the logit-space adjuster applies no watermark bonus at all —
its output is invariant under arbitrary changes of the watermark signal
(generator watermarks are instead handled earlier in `predict`, which returns
`HARD_AI_MIN_PROB` directly); the configured generic watermark bonus constant
is 1.2, not ≈2.0. -/
theorem C7_amended_no_watermark_bonus :
    (∀ (p : ℝ) (b : Bundle) (w1 w2 : Watermark),
      applyHardEvidenceBoosts p { b with watermark := w1 }
        = applyHardEvidenceBoosts p { b with watermark := w2 }) ∧
    WATERMARK_LOGIT_BONUS = 1.2 ∧ WATERMARK_GENERATOR_LOGIT_BONUS = 6.0 :=
  ⟨fun _ _ _ _ => rfl, rfl, rfl⟩

lemma artifactScale_pos (o : ℝ) : 0 < artifactScale o := by
  unfold artifactScale
  split_ifs <;> norm_num

lemma forensicsScale_pos (o : ℝ) : 0 < forensicsScale o := by
  unfold forensicsScale
  split_ifs
  · exact artifactScale_pos o
  · norm_num

lemma fuseDen_pos (mw : String → ℝ) (hmw : ∀ m, 0 < mw m) (b : Bundle) :
    0 < fuseDen mw b := by
  have hw : 0 ≤ (if b.watermark.detected then 0.4 * mw "watermark" else 0) := by
    split_ifs
    · exact mul_nonneg (by norm_num) (hmw _).le
    · exact le_rfl
  have hf : 0 ≤ (if b.face_analysis.face_detected
      then 0.25 * mw "face_analysis" else 0) := by
    split_ifs
    · exact mul_nonneg (by norm_num) (hmw _).le
    · exact le_rfl
  have hfs := forensicsScale_pos b.temporal.oddity_score
  have has := artifactScale_pos b.temporal.oddity_score
  have h1 := hmw "forensics_prnu"
  have h2 := hmw "forensics_flicker"
  have h3 := hmw "forensics_codec"
  have h4 := hmw "audio_sync"
  have h5 := hmw "edge_artifacts"
  have h6 := hmw "texture_inconsistency"
  have h7 := hmw "color_anomaly"
  have h8 := hmw "freq_artifacts"
  have h9 := hmw "mouth_exaggeration"
  have h10 := hmw "mouth_static"
  have h11 := hmw "eye_blink"
  have h12 := hmw "face_symmetry"
  have h13 := hmw "scene_logic"
  unfold fuseDen
  nlinarith [mul_pos (mul_pos (by norm_num : (0:ℝ) < 0.18) hfs) h2,
    mul_pos (mul_pos (by norm_num : (0:ℝ) < 0.15) hfs) h3,
    mul_pos (mul_pos (by norm_num : (0:ℝ) < 0.16) has) h5,
    mul_pos (mul_pos (by norm_num : (0:ℝ) < 0.14) has) h6,
    mul_pos (mul_pos (by norm_num : (0:ℝ) < 0.1) has) h7,
    mul_pos (mul_pos (by norm_num : (0:ℝ) < 0.14) has) h8,
    mul_pos (by norm_num : (0:ℝ) < 0.2) h1,
    mul_pos (by norm_num : (0:ℝ) < 0.12) h4,
    mul_pos (by norm_num : (0:ℝ) < 0.16) h9,
    mul_pos (by norm_num : (0:ℝ) < 0.14) h10,
    mul_pos (by norm_num : (0:ℝ) < 0.12) h11,
    mul_pos (by norm_num : (0:ℝ) < 0.1) h12,
    mul_pos (by norm_num : (0:ℝ) < 0.08) h13]

lemma ite_pos_mono {p q : Prop} [Decidable p] [Decidable q] (hpq : p → q)
    {c : ℝ} (hc : 0 ≤ c) : (if p then c else 0) ≤ if q then c else 0 := by
  split_ifs with h1 h2 h2
  · exact le_rfl
  · exact absurd (hpq h1) h2
  · exact hc
  · exact le_rfl

lemma ite_nonpos_mono {p q : Prop} [Decidable p] [Decidable q] (hqp : q → p)
    {c : ℝ} (hc : c ≤ 0) : (if p then c else 0) ≤ if q then c else 0 := by
  split_ifs with h1 h2 h2
  · exact le_rfl
  · exact hc
  · exact absurd (hqp h2) h1
  · exact le_rfl

lemma ite_nat_mono {p q : Prop} [Decidable p] [Decidable q] (hpq : p → q) :
    (if p then (1:ℕ) else 0) ≤ if q then 1 else 0 := by
  split_ifs with h1 h2 h2
  · exact le_rfl
  · exact absurd (hpq h1) h2
  · exact Nat.zero_le 1
  · exact le_rfl

lemma indepCap_le {p : ℝ} {s : ℕ} :
    (if p > 0.90 ∧ s < 2 then (0.90:ℝ) else p) ≤ p := by
  split_ifs with h
  · exact h.1.le
  · exact le_rfl

lemma indepCap_mono {p₁ p₂ : ℝ} {s₁ s₂ : ℕ} (hp : p₁ ≤ p₂) (hs : s₁ ≤ s₂) :
    (if p₁ > 0.90 ∧ s₁ < 2 then (0.90:ℝ) else p₁)
      ≤ (if p₂ > 0.90 ∧ s₂ < 2 then (0.90:ℝ) else p₂) := by
  split_ifs with h1 h2 h2
  · exact le_rfl
  · exact le_trans h1.1.le hp
  · by_cases hgt : p₁ > 0.90
    · exact absurd ⟨hgt, lt_of_le_of_lt hs h2.2⟩ h1
    · exact not_lt.mp hgt
  · exact hp

lemma qualCap_le {x : ℝ} {s : ℕ} (low : Prop) [Decidable low] :
    (if low ∧ s ≤ 1 then min x 0.75 else x) ≤ x := by
  split_ifs with h
  · exact min_le_left _ _
  · exact le_rfl

lemma qualCap_mono {x₁ x₂ : ℝ} {s₁ s₂ : ℕ} (low : Prop) [Decidable low]
    (hx : x₁ ≤ x₂) (hs : s₁ ≤ s₂) :
    (if low ∧ s₁ ≤ 1 then min x₁ 0.75 else x₁)
      ≤ (if low ∧ s₂ ≤ 1 then min x₂ 0.75 else x₂) := by
  split_ifs with h1 h2 h2
  · exact min_le_min hx le_rfl
  · exact le_trans (min_le_left _ _) hx
  · exact absurd ⟨h2.1, le_trans hs h2.2⟩ h1
  · exact hx

/-- Master monotonicity lemma for `predict`: if two bundles share watermark and
quality, the rule-based aggregate, logit adjustments, hard-evidence flag, and
strong count are all ordered, and the real-evidence override fires in neither
run, then the final probabilities are ordered. -/
lemma predict_mono (mw : String → ℝ) (b₁ b₂ : Bundle)
    (hwm : b₁.watermark = b₂.watermark)
    (hq : b₁.quality = b₂.quality)
    (hfuse : fuse_rule_based mw b₁ ≤ fuse_rule_based mw b₂)
    (hadj : calmAdjust b₁ + hardBonus b₁ ≤ calmAdjust b₂ + hardBonus b₂)
    (hslb : HasStrongLogicBreak b₁ → HasStrongLogicBreak b₂)
    (hstrong : strongCount b₁ ≤ strongCount b₂)
    (ho₁ : ¬PredictOverrideFires mw b₁)
    (ho₂ : ¬PredictOverrideFires mw b₂) :
    predictProb mw b₁ ≤ predictProb mw b₂ := by
  by_cases hg : GeneratorWMFires b₂.watermark
  · simp only [predictProb]
    rw [if_pos hg, if_pos (hwm ▸ hg)]
  · have hg₁ : ¬GeneratorWMFires b₁.watermark := fun h => hg (hwm ▸ h)
    have hpA : pAfterBoosts (fuse_rule_based mw b₁) b₁
        ≤ pAfterBoosts (fuse_rule_based mw b₂) b₂ := by
      unfold pAfterBoosts
      apply toProb_mono
      have := toLogit_mono hfuse
      linarith
    have hnoov₁ : ¬HasStrongLogicBreak b₁ →
        ¬(4 ≤ realEvidenceCount b₁ ∧
          pAfterBoosts (fuse_rule_based mw b₁) b₁ > 0.75) := by
      intro hns hc
      exact ho₁ ⟨hg₁, hns, hc.1, hc.2⟩
    have hnoov₂ : ¬HasStrongLogicBreak b₂ →
        ¬(4 ≤ realEvidenceCount b₂ ∧
          pAfterBoosts (fuse_rule_based mw b₂) b₂ > 0.75) := by
      intro hns hc
      exact ho₂ ⟨hg, hns, hc.1, hc.2⟩
    simp only [predictProb]
    rw [if_neg hg₁, if_neg hg]
    by_cases hs₂ : HasStrongLogicBreak b₂
    · rw [if_pos hs₂]
      by_cases hs₁ : HasStrongLogicBreak b₁
      · rw [if_pos hs₁]
        apply clip_le_clip
        rw [applyHardEvidenceBoosts, if_pos hs₁,
          applyHardEvidenceBoosts, if_pos hs₂]
        exact max_le_max hpA le_rfl
      · rw [if_neg hs₁]
        apply clip_le_clip
        have hb₁ : applyHardEvidenceBoosts (fuse_rule_based mw b₁) b₁
            = pAfterBoosts (fuse_rule_based mw b₁) b₁ := by
          rw [applyHardEvidenceBoosts, if_neg hs₁, if_neg (hnoov₁ hs₁)]
        have hb₂ : applyHardEvidenceBoosts (fuse_rule_based mw b₂) b₂
            = max (pAfterBoosts (fuse_rule_based mw b₂) b₂) HARD_AI_MIN_PROB := by
          rw [applyHardEvidenceBoosts, if_pos hs₂]
        rw [hb₂]
        calc (if b₁.quality.status = "low" ∧ strongCount b₁ ≤ 1
              then min (if applyHardEvidenceBoosts (fuse_rule_based mw b₁) b₁ > 0.90 ∧
                  strongCount b₁ < 2 then (0.90:ℝ)
                else applyHardEvidenceBoosts (fuse_rule_based mw b₁) b₁) 0.75
              else (if applyHardEvidenceBoosts (fuse_rule_based mw b₁) b₁ > 0.90 ∧
                  strongCount b₁ < 2 then (0.90:ℝ)
                else applyHardEvidenceBoosts (fuse_rule_based mw b₁) b₁))
            ≤ applyHardEvidenceBoosts (fuse_rule_based mw b₁) b₁ :=
              le_trans (qualCap_le _) indepCap_le
          _ = pAfterBoosts (fuse_rule_based mw b₁) b₁ := hb₁
          _ ≤ pAfterBoosts (fuse_rule_based mw b₂) b₂ := hpA
          _ ≤ max (pAfterBoosts (fuse_rule_based mw b₂) b₂) HARD_AI_MIN_PROB :=
              le_max_left _ _
    · have hs₁ : ¬HasStrongLogicBreak b₁ := fun h => hs₂ (hslb h)
      rw [if_neg hs₁, if_neg hs₂]
      apply clip_le_clip
      have hb₁ : applyHardEvidenceBoosts (fuse_rule_based mw b₁) b₁
          = pAfterBoosts (fuse_rule_based mw b₁) b₁ := by
        rw [applyHardEvidenceBoosts, if_neg hs₁, if_neg (hnoov₁ hs₁)]
      have hb₂ : applyHardEvidenceBoosts (fuse_rule_based mw b₂) b₂
          = pAfterBoosts (fuse_rule_based mw b₂) b₂ := by
        rw [applyHardEvidenceBoosts, if_neg hs₂, if_neg (hnoov₂ hs₂)]
      have hqs : b₁.quality.status = b₂.quality.status := by rw [hq]
      rw [hb₁, hb₂, hqs]
      exact qualCap_mono _ (indepCap_mono hpA hstrong) hstrong

set_option maxHeartbeats 2000000 in
/-- C4 (amended): with the real-evidence override not firing in either run,
increasing any single ai-evidence raw score other than flow oddity (flicker,
codec, the four visual-artifact scores, the four facial-dynamics scores, scene
incoherence) never decreases the final probability, and increasing a
real-evidence raw score (PRNU, A/V sync) never increases it.  Flow oddity is
excluded: its step-function down-weighting of artifact weights is deliberately
non-monotone. -/
theorem C4_amended_monotonicity (mw : String → ℝ) (hmw : ∀ m, 0 < mw m)
    (b : Bundle) (v₁ v₂ : ℝ) (h : v₁ ≤ v₂) :
    (∀ f : AIScore, ¬PredictOverrideFires mw (setAI b f v₁) →
      ¬PredictOverrideFires mw (setAI b f v₂) →
      predictProb mw (setAI b f v₁) ≤ predictProb mw (setAI b f v₂)) ∧
    (∀ g : RealScore, ¬PredictOverrideFires mw (setReal b g v₁) →
      ¬PredictOverrideFires mw (setReal b g v₂) →
      predictProb mw (setReal b g v₂) ≤ predictProb mw (setReal b g v₁)) := by
  have hfsc : (0:ℝ) < forensicsScale b.temporal.oddity_score :=
    forensicsScale_pos _
  have hasc : (0:ℝ) < artifactScale b.temporal.oddity_score :=
    artifactScale_pos _
  constructor
  · intro f ho₁ ho₂
    cases f with
    | flicker =>
      refine predict_mono mw _ _ rfl rfl ?_ le_rfl (fun hh => hh) le_rfl ho₁ ho₂
      rw [fuse_eq, fuse_eq, show fuseDen mw (setAI b AIScore.flicker v₂)
        = fuseDen mw (setAI b AIScore.flicker v₁) from rfl]
      apply clip_le_clip
      refine div_le_div_of_nonneg_right ?_ (fuseDen_pos mw hmw _).le
      have hc : (0:ℝ) ≤ 0.18 * forensicsScale b.temporal.oddity_score
          * mw "forensics_flicker" :=
        mul_nonneg (mul_nonneg (by norm_num) hfsc.le) (hmw _).le
      have hv := mul_le_mul_of_nonneg_right h hc
      simp only [fuseNum, setAI]
      linarith
    | codec =>
      refine predict_mono mw _ _ rfl rfl ?_ le_rfl (fun hh => hh) le_rfl ho₁ ho₂
      rw [fuse_eq, fuse_eq, show fuseDen mw (setAI b AIScore.codec v₂)
        = fuseDen mw (setAI b AIScore.codec v₁) from rfl]
      apply clip_le_clip
      refine div_le_div_of_nonneg_right ?_ (fuseDen_pos mw hmw _).le
      have hc : (0:ℝ) ≤ 0.15 * forensicsScale b.temporal.oddity_score
          * mw "forensics_codec" :=
        mul_nonneg (mul_nonneg (by norm_num) hfsc.le) (hmw _).le
      have hv := mul_le_mul_of_nonneg_right h hc
      simp only [fuseNum, setAI]
      linarith
    | edge =>
      refine predict_mono mw _ _ rfl rfl ?_ le_rfl (fun hh => hh) ?_ ho₁ ho₂
      · rw [fuse_eq, fuse_eq, show fuseDen mw (setAI b AIScore.edge v₂)
          = fuseDen mw (setAI b AIScore.edge v₁) from rfl]
        apply clip_le_clip
        refine div_le_div_of_nonneg_right ?_ (fuseDen_pos mw hmw _).le
        have hc : (0:ℝ) ≤ 0.16 * artifactScale b.temporal.oddity_score
            * mw "edge_artifacts" :=
          mul_nonneg (mul_nonneg (by norm_num) hasc.le) (hmw _).le
        have hv := mul_le_mul_of_nonneg_right h hc
        simp only [fuseNum, setAI]
        linarith
      · have h3 : (b.artifact_analysis.freq_artifact_score ≥ 0.8 ∨ v₁ ≥ 0.8) →
            (b.artifact_analysis.freq_artifact_score ≥ 0.8 ∨ v₂ ≥ 0.8) := by
          rintro (hh | hh)
          exacts [Or.inl hh, Or.inr (le_trans hh h)]
        unfold strongCount
        simp only [setAI]
        exact Nat.add_le_add (Nat.add_le_add
          (Nat.add_le_add_left (ite_nat_mono h3) _) le_rfl) le_rfl
    | texture =>
      refine predict_mono mw _ _ rfl rfl ?_ le_rfl (fun hh => hh) le_rfl ho₁ ho₂
      rw [fuse_eq, fuse_eq, show fuseDen mw (setAI b AIScore.texture v₂)
        = fuseDen mw (setAI b AIScore.texture v₁) from rfl]
      apply clip_le_clip
      refine div_le_div_of_nonneg_right ?_ (fuseDen_pos mw hmw _).le
      have hc : (0:ℝ) ≤ 0.14 * artifactScale b.temporal.oddity_score
          * mw "texture_inconsistency" :=
        mul_nonneg (mul_nonneg (by norm_num) hasc.le) (hmw _).le
      have hv := mul_le_mul_of_nonneg_right h hc
      simp only [fuseNum, setAI]
      linarith
    | color =>
      refine predict_mono mw _ _ rfl rfl ?_ le_rfl (fun hh => hh) le_rfl ho₁ ho₂
      rw [fuse_eq, fuse_eq, show fuseDen mw (setAI b AIScore.color v₂)
        = fuseDen mw (setAI b AIScore.color v₁) from rfl]
      apply clip_le_clip
      refine div_le_div_of_nonneg_right ?_ (fuseDen_pos mw hmw _).le
      have hc : (0:ℝ) ≤ 0.1 * artifactScale b.temporal.oddity_score
          * mw "color_anomaly" :=
        mul_nonneg (mul_nonneg (by norm_num) hasc.le) (hmw _).le
      have hv := mul_le_mul_of_nonneg_right h hc
      simp only [fuseNum, setAI]
      linarith
    | freq =>
      refine predict_mono mw _ _ rfl rfl ?_ le_rfl (fun hh => hh) ?_ ho₁ ho₂
      · rw [fuse_eq, fuse_eq, show fuseDen mw (setAI b AIScore.freq v₂)
          = fuseDen mw (setAI b AIScore.freq v₁) from rfl]
        apply clip_le_clip
        refine div_le_div_of_nonneg_right ?_ (fuseDen_pos mw hmw _).le
        have hc : (0:ℝ) ≤ 0.14 * artifactScale b.temporal.oddity_score
            * mw "freq_artifacts" :=
          mul_nonneg (mul_nonneg (by norm_num) hasc.le) (hmw _).le
        have hv := mul_le_mul_of_nonneg_right h hc
        simp only [fuseNum, setAI]
        linarith
      · have h3 : (v₁ ≥ 0.8 ∨ b.artifact_analysis.edge_artifact_score ≥ 0.8) →
            (v₂ ≥ 0.8 ∨ b.artifact_analysis.edge_artifact_score ≥ 0.8) := by
          rintro (hh | hh)
          exacts [Or.inl (le_trans hh h), Or.inr hh]
        unfold strongCount
        simp only [setAI]
        exact Nat.add_le_add (Nat.add_le_add
          (Nat.add_le_add_left (ite_nat_mono h3) _) le_rfl) le_rfl
    | mouthEx =>
      have hmax : anatomyMax (setAI b AIScore.mouthEx v₁)
          ≤ anatomyMax (setAI b AIScore.mouthEx v₂) := by
        simp only [anatomyMax, setAI]
        exact max_le_max (max_le_max h le_rfl) le_rfl
      refine predict_mono mw _ _ rfl rfl ?_ ?_ (fun hh => hh) ?_ ho₁ ho₂
      · rw [fuse_eq, fuse_eq, show fuseDen mw (setAI b AIScore.mouthEx v₂)
          = fuseDen mw (setAI b AIScore.mouthEx v₁) from rfl]
        apply clip_le_clip
        refine div_le_div_of_nonneg_right ?_ (fuseDen_pos mw hmw _).le
        have hc : (0:ℝ) ≤ 0.16 * mw "mouth_exaggeration" :=
          mul_nonneg (by norm_num) (hmw _).le
        have hv := mul_le_mul_of_nonneg_right h hc
        simp only [fuseNum, setAI]
        linarith
      · have hcalm : calmAdjust (setAI b AIScore.mouthEx v₁)
            = calmAdjust (setAI b AIScore.mouthEx v₂) := rfl
        have hb : hardBonus (setAI b AIScore.mouthEx v₁)
            ≤ hardBonus (setAI b AIScore.mouthEx v₂) := by
          unfold hardBonus
          have hterm := ite_pos_mono
            (p := HasAnatomy (setAI b AIScore.mouthEx v₁))
            (q := HasAnatomy (setAI b AIScore.mouthEx v₂))
            (fun hh => le_trans hh hmax)
            (show (0:ℝ) ≤ ANATOMY_LOGIT_BONUS by
              rw [ANATOMY_LOGIT_BONUS]; norm_num)
          have hsc : (if HasStrongLogicBreak (setAI b AIScore.mouthEx v₁)
              then LOGIC_BREAK_STRONG_LOGIT_BONUS
              else if HasLogicBreak (setAI b AIScore.mouthEx v₁)
                then LOGIC_BREAK_LOGIT_BONUS else 0)
              = (if HasStrongLogicBreak (setAI b AIScore.mouthEx v₂)
              then LOGIC_BREAK_STRONG_LOGIT_BONUS
              else if HasLogicBreak (setAI b AIScore.mouthEx v₂)
                then LOGIC_BREAK_LOGIT_BONUS else 0) := rfl
          linarith [hterm, hsc]
        linarith [hcalm, hb]
      · unfold strongCount
        exact Nat.add_le_add (Nat.add_le_add_left
          (ite_nat_mono (fun hh => le_trans hh hmax)) _) le_rfl
    | mouthStatic =>
      have hmax : anatomyMax (setAI b AIScore.mouthStatic v₁)
          ≤ anatomyMax (setAI b AIScore.mouthStatic v₂) := by
        simp only [anatomyMax, setAI]
        exact max_le_max (max_le_max le_rfl h) le_rfl
      refine predict_mono mw _ _ rfl rfl ?_ ?_ (fun hh => hh) ?_ ho₁ ho₂
      · rw [fuse_eq, fuse_eq, show fuseDen mw (setAI b AIScore.mouthStatic v₂)
          = fuseDen mw (setAI b AIScore.mouthStatic v₁) from rfl]
        apply clip_le_clip
        refine div_le_div_of_nonneg_right ?_ (fuseDen_pos mw hmw _).le
        have hc : (0:ℝ) ≤ 0.14 * mw "mouth_static" :=
          mul_nonneg (by norm_num) (hmw _).le
        have hv := mul_le_mul_of_nonneg_right h hc
        simp only [fuseNum, setAI]
        linarith
      · have hcalm : calmAdjust (setAI b AIScore.mouthStatic v₁)
            = calmAdjust (setAI b AIScore.mouthStatic v₂) := rfl
        have hb : hardBonus (setAI b AIScore.mouthStatic v₁)
            ≤ hardBonus (setAI b AIScore.mouthStatic v₂) := by
          unfold hardBonus
          have hterm := ite_pos_mono
            (p := HasAnatomy (setAI b AIScore.mouthStatic v₁))
            (q := HasAnatomy (setAI b AIScore.mouthStatic v₂))
            (fun hh => le_trans hh hmax)
            (show (0:ℝ) ≤ ANATOMY_LOGIT_BONUS by
              rw [ANATOMY_LOGIT_BONUS]; norm_num)
          have hsc : (if HasStrongLogicBreak (setAI b AIScore.mouthStatic v₁)
              then LOGIC_BREAK_STRONG_LOGIT_BONUS
              else if HasLogicBreak (setAI b AIScore.mouthStatic v₁)
                then LOGIC_BREAK_LOGIT_BONUS else 0)
              = (if HasStrongLogicBreak (setAI b AIScore.mouthStatic v₂)
              then LOGIC_BREAK_STRONG_LOGIT_BONUS
              else if HasLogicBreak (setAI b AIScore.mouthStatic v₂)
                then LOGIC_BREAK_LOGIT_BONUS else 0) := rfl
          linarith [hterm, hsc]
        linarith [hcalm, hb]
      · unfold strongCount
        exact Nat.add_le_add (Nat.add_le_add_left
          (ite_nat_mono (fun hh => le_trans hh hmax)) _) le_rfl
    | blink =>
      have hmax : anatomyMax (setAI b AIScore.blink v₁)
          ≤ anatomyMax (setAI b AIScore.blink v₂) := by
        simp only [anatomyMax, setAI]
        exact max_le_max le_rfl (max_le_max h le_rfl)
      refine predict_mono mw _ _ rfl rfl ?_ ?_ (fun hh => hh) ?_ ho₁ ho₂
      · rw [fuse_eq, fuse_eq, show fuseDen mw (setAI b AIScore.blink v₂)
          = fuseDen mw (setAI b AIScore.blink v₁) from rfl]
        apply clip_le_clip
        refine div_le_div_of_nonneg_right ?_ (fuseDen_pos mw hmw _).le
        have hc : (0:ℝ) ≤ 0.12 * mw "eye_blink" :=
          mul_nonneg (by norm_num) (hmw _).le
        have hv := mul_le_mul_of_nonneg_right h hc
        simp only [fuseNum, setAI]
        linarith
      · have hcalm : calmAdjust (setAI b AIScore.blink v₁)
            = calmAdjust (setAI b AIScore.blink v₂) := rfl
        have hb : hardBonus (setAI b AIScore.blink v₁)
            ≤ hardBonus (setAI b AIScore.blink v₂) := by
          unfold hardBonus
          have hterm := ite_pos_mono
            (p := HasAnatomy (setAI b AIScore.blink v₁))
            (q := HasAnatomy (setAI b AIScore.blink v₂))
            (fun hh => le_trans hh hmax)
            (show (0:ℝ) ≤ ANATOMY_LOGIT_BONUS by
              rw [ANATOMY_LOGIT_BONUS]; norm_num)
          have hsc : (if HasStrongLogicBreak (setAI b AIScore.blink v₁)
              then LOGIC_BREAK_STRONG_LOGIT_BONUS
              else if HasLogicBreak (setAI b AIScore.blink v₁)
                then LOGIC_BREAK_LOGIT_BONUS else 0)
              = (if HasStrongLogicBreak (setAI b AIScore.blink v₂)
              then LOGIC_BREAK_STRONG_LOGIT_BONUS
              else if HasLogicBreak (setAI b AIScore.blink v₂)
                then LOGIC_BREAK_LOGIT_BONUS else 0) := rfl
          linarith [hterm, hsc]
        linarith [hcalm, hb]
      · unfold strongCount
        exact Nat.add_le_add (Nat.add_le_add_left
          (ite_nat_mono (fun hh => le_trans hh hmax)) _) le_rfl
    | symmetry =>
      have hmax : anatomyMax (setAI b AIScore.symmetry v₁)
          ≤ anatomyMax (setAI b AIScore.symmetry v₂) := by
        simp only [anatomyMax, setAI]
        exact max_le_max le_rfl (max_le_max le_rfl h)
      refine predict_mono mw _ _ rfl rfl ?_ ?_ (fun hh => hh) ?_ ho₁ ho₂
      · rw [fuse_eq, fuse_eq, show fuseDen mw (setAI b AIScore.symmetry v₂)
          = fuseDen mw (setAI b AIScore.symmetry v₁) from rfl]
        apply clip_le_clip
        refine div_le_div_of_nonneg_right ?_ (fuseDen_pos mw hmw _).le
        have hc : (0:ℝ) ≤ 0.1 * mw "face_symmetry" :=
          mul_nonneg (by norm_num) (hmw _).le
        have hv := mul_le_mul_of_nonneg_right h hc
        simp only [fuseNum, setAI]
        linarith
      · have hcalm : calmAdjust (setAI b AIScore.symmetry v₁)
            = calmAdjust (setAI b AIScore.symmetry v₂) := rfl
        have hb : hardBonus (setAI b AIScore.symmetry v₁)
            ≤ hardBonus (setAI b AIScore.symmetry v₂) := by
          unfold hardBonus
          have hterm := ite_pos_mono
            (p := HasAnatomy (setAI b AIScore.symmetry v₁))
            (q := HasAnatomy (setAI b AIScore.symmetry v₂))
            (fun hh => le_trans hh hmax)
            (show (0:ℝ) ≤ ANATOMY_LOGIT_BONUS by
              rw [ANATOMY_LOGIT_BONUS]; norm_num)
          have hsc : (if HasStrongLogicBreak (setAI b AIScore.symmetry v₁)
              then LOGIC_BREAK_STRONG_LOGIT_BONUS
              else if HasLogicBreak (setAI b AIScore.symmetry v₁)
                then LOGIC_BREAK_LOGIT_BONUS else 0)
              = (if HasStrongLogicBreak (setAI b AIScore.symmetry v₂)
              then LOGIC_BREAK_STRONG_LOGIT_BONUS
              else if HasLogicBreak (setAI b AIScore.symmetry v₂)
                then LOGIC_BREAK_LOGIT_BONUS else 0) := rfl
          linarith [hterm, hsc]
        linarith [hcalm, hb]
      · unfold strongCount
        exact Nat.add_le_add (Nat.add_le_add_left
          (ite_nat_mono (fun hh => le_trans hh hmax)) _) le_rfl
    | incoherence =>
      have hstr : HasStrongLogicBreak (setAI b AIScore.incoherence v₁) →
          HasStrongLogicBreak (setAI b AIScore.incoherence v₂) := by
        rintro ⟨hf, hi, hc⟩
        exact ⟨hf, le_trans hi h, hc⟩
      refine predict_mono mw _ _ rfl rfl ?_ ?_ hstr le_rfl ho₁ ho₂
      · rw [fuse_eq, fuse_eq, show fuseDen mw (setAI b AIScore.incoherence v₂)
          = fuseDen mw (setAI b AIScore.incoherence v₁) from rfl]
        apply clip_le_clip
        refine div_le_div_of_nonneg_right ?_ (fuseDen_pos mw hmw _).le
        have hc : (0:ℝ) ≤ 0.08 * mw "scene_logic" :=
          mul_nonneg (by norm_num) (hmw _).le
        have hv := mul_le_mul_of_nonneg_right h hc
        simp only [fuseNum, setAI]
        linarith
      · have hcalm : calmAdjust (setAI b AIScore.incoherence v₁)
            ≤ calmAdjust (setAI b AIScore.incoherence v₂) := by
          have hc5 := ite_nonpos_mono
            (p := v₁ ≤ 0.35 ∧ b.scene_logic.flag = false)
            (q := v₂ ≤ 0.35 ∧ b.scene_logic.flag = false)
            (fun hh => ⟨le_trans h hh.1, hh.2⟩)
            (show (-0.15:ℝ) ≤ 0 by norm_num)
          simp only [calmAdjust, setAI]
          linarith [hc5]
        have hb : hardBonus (setAI b AIScore.incoherence v₁)
            ≤ hardBonus (setAI b AIScore.incoherence v₂) := by
          unfold hardBonus
          have hsc : (if HasStrongLogicBreak (setAI b AIScore.incoherence v₁)
              then LOGIC_BREAK_STRONG_LOGIT_BONUS
              else if HasLogicBreak (setAI b AIScore.incoherence v₁)
                then LOGIC_BREAK_LOGIT_BONUS else 0)
              ≤ (if HasStrongLogicBreak (setAI b AIScore.incoherence v₂)
              then LOGIC_BREAK_STRONG_LOGIT_BONUS
              else if HasLogicBreak (setAI b AIScore.incoherence v₂)
                then LOGIC_BREAK_LOGIT_BONUS else 0) := by
            by_cases hs2 : HasStrongLogicBreak (setAI b AIScore.incoherence v₂)
            · rw [if_pos hs2]
              split_ifs with hs1 hb1
              · exact le_rfl
              · rw [LOGIC_BREAK_LOGIT_BONUS, LOGIC_BREAK_STRONG_LOGIT_BONUS]
                norm_num
              · rw [LOGIC_BREAK_STRONG_LOGIT_BONUS]; norm_num
            · rw [if_neg hs2, if_neg (fun hh => hs2 (hstr hh))]
              exact le_rfl
          have hana : (if HasAnatomy (setAI b AIScore.incoherence v₁)
              then ANATOMY_LOGIT_BONUS else 0)
              = (if HasAnatomy (setAI b AIScore.incoherence v₂)
              then ANATOMY_LOGIT_BONUS else 0) := rfl
          linarith [hsc, hana]
        linarith [hcalm, hb]
  · intro g ho₁ ho₂
    cases g with
    | prnu =>
      refine predict_mono mw _ _ rfl rfl ?_ ?_ (fun hh => hh) le_rfl ho₂ ho₁
      · rw [fuse_eq, fuse_eq, show fuseDen mw (setReal b RealScore.prnu v₁)
          = fuseDen mw (setReal b RealScore.prnu v₂) from rfl]
        apply clip_le_clip
        refine div_le_div_of_nonneg_right ?_ (fuseDen_pos mw hmw _).le
        have hc : (0:ℝ) ≤ 0.2 * mw "forensics_prnu" :=
          mul_nonneg (by norm_num) (hmw _).le
        have hv := mul_le_mul_of_nonneg_right
          (show (1:ℝ) - v₂ ≤ 1 - v₁ by linarith) hc
        simp only [fuseNum, setReal]
        linarith
      · have hcalm : calmAdjust (setReal b RealScore.prnu v₂)
            ≤ calmAdjust (setReal b RealScore.prnu v₁) := by
          have hc1 := ite_nonpos_mono
            (p := v₂ ≥ 0.70) (q := v₁ ≥ 0.70)
            (fun hh => le_trans hh h)
            (show (-0.6:ℝ) ≤ 0 by norm_num)
          simp only [calmAdjust, setReal]
          linarith [hc1]
        have hb : hardBonus (setReal b RealScore.prnu v₂)
            = hardBonus (setReal b RealScore.prnu v₁) := rfl
        linarith [hcalm, hb]
    | sync =>
      refine predict_mono mw _ _ rfl rfl ?_ ?_ (fun hh => hh) le_rfl ho₂ ho₁
      · rw [fuse_eq, fuse_eq, show fuseDen mw (setReal b RealScore.sync v₁)
          = fuseDen mw (setReal b RealScore.sync v₂) from rfl]
        apply clip_le_clip
        refine div_le_div_of_nonneg_right ?_ (fuseDen_pos mw hmw _).le
        have hc : (0:ℝ) ≤ 0.12 * mw "audio_sync" :=
          mul_nonneg (by norm_num) (hmw _).le
        have hv := mul_le_mul_of_nonneg_right
          (show (1:ℝ) - v₂ ≤ 1 - v₁ by linarith) hc
        simp only [fuseNum, setReal]
        linarith
      · have hcalm : calmAdjust (setReal b RealScore.sync v₂)
            ≤ calmAdjust (setReal b RealScore.sync v₁) := by
          have hc2 := ite_nonpos_mono
            (p := v₂ ≥ 0.80) (q := v₁ ≥ 0.80)
            (fun hh => le_trans hh h)
            (show (-0.3:ℝ) ≤ 0 by norm_num)
          simp only [calmAdjust, setReal]
          linarith [hc2]
        have hb : hardBonus (setReal b RealScore.sync v₂)
            = hardBonus (setReal b RealScore.sync v₁) := rfl
        linarith [hcalm, hb]

/-- Boost stage is the identity when no calming, no bonus, fewer than 4
real-evidence criteria, and no strong break apply and the probability is
inside the clamp range. -/
lemma applyBoosts_id (p : ℝ) (b : Bundle) (hcalm : calmAdjust b = 0)
    (hbonus : hardBonus b = 0) (hcnt : realEvidenceCount b < 4)
    (hslb : ¬HasStrongLogicBreak b) (hp1 : 1e-6 ≤ p) (hp2 : p ≤ 1 - 1e-6) :
    applyHardEvidenceBoosts p b = p := by
  have hafter : pAfterBoosts p b = p := by
    rw [pAfterBoosts, hcalm, hbonus]
    norm_num
    exact toProb_toLogit hp1 hp2
  rw [applyHardEvidenceBoosts, if_neg hslb, hafter, if_neg]
  rintro ⟨h4, -⟩
  omega

/-- Full evaluation of `predict` on a run where nothing fires. -/
lemma predict_eval (mw : String → ℝ) (b : Bundle) (v : ℝ)
    (hgw : ¬GeneratorWMFires b.watermark) (hslb : ¬HasStrongLogicBreak b)
    (hfuse : fuse_rule_based mw b = v)
    (happly : applyHardEvidenceBoosts v b = v)
    (hv9 : v ≤ 0.90) (hq : ¬b.quality.status = "low")
    (h0 : 0 ≤ v) (h1 : v ≤ 1) :
    predictProb mw b = v := by
  simp only [predictProb]
  rw [if_neg hgw, if_neg hslb, hfuse, happly, if_neg, if_neg,
    clip_eq_self h0 h1]
  · rintro ⟨hgt, -⟩
    linarith
  · rintro ⟨hqs, -⟩
    exact hq hqs

lemma c4_no_gw (v : ℝ) : ¬GeneratorWMFires (setOddity c4Base v).watermark := by
  intro hh
  have := hh.1
  simp [setOddity, c4Base, neutralBundle] at this

lemma c4_no_slb (v : ℝ) : ¬HasStrongLogicBreak (setOddity c4Base v) := by
  intro hh
  have := hh.1
  simp [setOddity, c4Base, neutralBundle, HasStrongLogicBreak] at this

lemma c4_bonus (v : ℝ) : hardBonus (setOddity c4Base v) = 0 := by
  have h2 : ¬HasLogicBreak (setOddity c4Base v) := by
    intro hh
    have := hh.1
    simp [setOddity, c4Base, neutralBundle, HasLogicBreak] at this
  have h3 : ¬HasAnatomy (setOddity c4Base v) := by
    intro hh
    rw [HasAnatomy, anatomyMax] at hh
    norm_num [setOddity, c4Base, neutralBundle] at hh
  simp [hardBonus, c4_no_slb v, h2, h3]

lemma c4_eval_25 : predictProb (fun _ => 1) (setOddity c4Base 0.25) = 263/634 := by
  refine predict_eval _ _ _ (c4_no_gw _) (c4_no_slb _) ?_
    (applyBoosts_id _ _ ?_ (c4_bonus _) ?_ (c4_no_slb _) (by norm_num) (by norm_num))
    (by norm_num) ?_ (by norm_num) (by norm_num)
  · rw [fuse_eq]
    have hval : fuseNum (fun _ => 1) (setOddity c4Base 0.25)
        / fuseDen (fun _ => 1) (setOddity c4Base 0.25) = 263/634 := by
      norm_num [fuseNum, fuseDen, setOddity, c4Base, neutralBundle,
        forensicsScale, artifactScale]
    rw [hval]
    exact clip_eq_self (by norm_num) (by norm_num)
  · norm_num [calmAdjust, setOddity, c4Base, neutralBundle]
  · norm_num [realEvidenceCount, setOddity, c4Base, neutralBundle]
  · simp [setOddity, c4Base, neutralBundle]

lemma c4_eval_26 : predictProb (fun _ => 1) (setOddity c4Base 0.26) = 1151/3058 := by
  refine predict_eval _ _ _ (c4_no_gw _) (c4_no_slb _) ?_
    (applyBoosts_id _ _ ?_ (c4_bonus _) ?_ (c4_no_slb _) (by norm_num) (by norm_num))
    (by norm_num) ?_ (by norm_num) (by norm_num)
  · rw [fuse_eq]
    have hval : fuseNum (fun _ => 1) (setOddity c4Base 0.26)
        / fuseDen (fun _ => 1) (setOddity c4Base 0.26) = 1151/3058 := by
      norm_num [fuseNum, fuseDen, setOddity, c4Base, neutralBundle,
        forensicsScale, artifactScale]
    rw [hval]
    exact clip_eq_self (by norm_num) (by norm_num)
  · norm_num [calmAdjust, setOddity, c4Base, neutralBundle]
  · norm_num [realEvidenceCount, setOddity, c4Base, neutralBundle]
  · simp [setOddity, c4Base, neutralBundle]

/-- Counterexample to C4 as stated: increasing the flow-oddity score — listed
by the claim among ai-evidence raw scores — from 0.25 to 0.26 with all other
inputs fixed strictly decreases the final probability (from 263/634 ≈ 0.415
to 1151/3058 ≈ 0.376), because crossing 0.25 raises the artifact
down-weighting scale from 0.4 to 0.7 while the four artifact scores sit at 0. -/
theorem C4_counterexample :
    predictProb (fun _ => 1) (setOddity c4Base 0.26)
      < predictProb (fun _ => 1) (setOddity c4Base 0.25) := by
  rw [c4_eval_25, c4_eval_26]
  norm_num

/-- Witness for C4 at the neutral bundle, frequency-artifact score 0.5 → 0.6. -/
theorem C4_amended_monotonicity_witness :
    (0.5:ℝ) ≤ 0.6 ∧
    predictProb (fun _ => 1) (setAI neutralBundle AIScore.freq 0.5)
      ≤ predictProb (fun _ => 1) (setAI neutralBundle AIScore.freq 0.6) := by
  have hno : ∀ v : ℝ, ¬PredictOverrideFires (fun _ => 1)
      (setAI neutralBundle AIScore.freq v) := by
    intro v
    rintro ⟨-, -, h4, -⟩
    norm_num [realEvidenceCount, setAI, neutralBundle] at h4
  exact ⟨by norm_num,
    (C4_amended_monotonicity (fun _ => 1) (fun m => by norm_num) neutralBundle
      0.5 0.6 (by norm_num)).1 AIScore.freq (hno 0.5) (hno 0.6)⟩

/-- A call on an already-processed detection is a pure no-op returning True. -/
lemma store_feedback_already (s : StoreState) (id label : String)
    (notes : Option String) (d : DetectionRow) (hd : s.detections id = some d)
    (hfb : d.feedback_received = true) :
    store_feedback s id label notes = (s, true) := by
  unfold store_feedback
  rw [hd]
  simp [hfb]

/-- A first successful call on an unprocessed detection sets the
`feedback_received` flag of that detection. -/
lemma store_feedback_sets_flag (s : StoreState) (id label : String)
    (notes : Option String) (d : DetectionRow) (hd : s.detections id = some d)
    (hfb : d.feedback_received = false) :
    (store_feedback s id label notes).1.detections id =
      some { d with feedback_received := true } ∧
    (store_feedback s id label notes).2 = true := by
  unfold store_feedback
  rw [hd]
  simp [hfb]

/-- C9: feedback for a detection id absent from the `detections` table returns
False and leaves the whole state — in particular every `metric_stats`
counter — unchanged. -/
theorem C9_unknown_id_returns_not_found (s : StoreState) (id label : String)
    (notes : Option String) (h : s.detections id = none) :
    store_feedback s id label notes = (s, false) := by
  unfold store_feedback
  rw [h]

/-- C8: submitting the same feedback twice for one detection id leaves the
reliability counters after the second call identical to their values after the
first call, returns True, and inserts no second feedback row. -/
theorem C8_store_feedback_idempotent (s : StoreState) (id label : String)
    (notes : Option String) (d : DetectionRow) (hd : s.detections id = some d) :
    (store_feedback (store_feedback s id label notes).1 id label notes).1.metricStats
      = (store_feedback s id label notes).1.metricStats ∧
    (store_feedback (store_feedback s id label notes).1 id label notes).2 = true ∧
    (store_feedback (store_feedback s id label notes).1 id label notes).1.feedback
      = (store_feedback s id label notes).1.feedback := by
  by_cases hfb : d.feedback_received = true
  · rw [store_feedback_already s id label notes d hd hfb]
    rw [store_feedback_already s id label notes d hd hfb]
    exact ⟨rfl, rfl, rfl⟩
  · have hfb' : d.feedback_received = false := by
      cases h : d.feedback_received
      · rfl
      · exact absurd h hfb
    obtain ⟨h1, _⟩ := store_feedback_sets_flag s id label notes d hd hfb'
    rw [store_feedback_already _ id label notes _ h1 rfl]
    exact ⟨rfl, rfl, rfl⟩

/-- C10: after a first successful `store_feedback` call for a detection id,
any subsequent call for the same id — with arbitrary, possibly different,
label and notes — returns True and changes no state: the guard keys only on
the stored `feedback_received` flag. -/
theorem C10_second_call_ignores_new_label (s : StoreState) (id l1 l2 : String)
    (n1 n2 : Option String) (h : (store_feedback s id l1 n1).2 = true) :
    store_feedback (store_feedback s id l1 n1).1 id l2 n2 =
      ((store_feedback s id l1 n1).1, true) := by
  cases hd : s.detections id with
  | none =>
    rw [C9_unknown_id_returns_not_found s id l1 n1 hd] at h
    simp at h
  | some d =>
    by_cases hfb : d.feedback_received = true
    · rw [store_feedback_already s id l1 n1 d hd hfb]
      exact store_feedback_already s id l2 n2 d hd hfb
    · have hfb' : d.feedback_received = false := by
        cases hh : d.feedback_received
        · rfl
        · exact absurd hh hfb
      obtain ⟨h1, _⟩ := store_feedback_sets_flag s id l1 n1 d hd hfb'
      exact store_feedback_already _ id l2 n2 _ h1 rfl

/-- Witness for C8 at a one-detection store. -/
theorem C8_store_feedback_idempotent_witness :
    witnessState.detections "det1" = some witnessRow ∧
    (store_feedback (store_feedback witnessState "det1" "AI" none).1
        "det1" "AI" none).1.metricStats
      = (store_feedback witnessState "det1" "AI" none).1.metricStats :=
  ⟨by simp [witnessState],
   (C8_store_feedback_idempotent witnessState "det1" "AI" none witnessRow
     (by simp [witnessState])).1⟩

/-- Witness for C9 at an id that is not stored. -/
theorem C9_unknown_id_returns_not_found_witness :
    witnessState.detections "nope" = none ∧
    store_feedback witnessState "nope" "AI" none = (witnessState, false) :=
  ⟨by simp [witnessState],
   C9_unknown_id_returns_not_found witnessState "nope" "AI" none
     (by simp [witnessState])⟩

/-- Witness for C10: two calls with different labels and notes. -/
theorem C10_second_call_ignores_new_label_witness :
    (store_feedback witnessState "det1" "AI" none).2 = true ∧
    store_feedback (store_feedback witnessState "det1" "AI" none).1
        "det1" "REAL" (some "blurry mouth") =
      ((store_feedback witnessState "det1" "AI" none).1, true) :=
  ⟨(store_feedback_sets_flag witnessState "det1" "AI" none witnessRow
      (by simp [witnessState]) rfl).2,
   C10_second_call_ignores_new_label witnessState "det1" "AI" "REAL" none
     (some "blurry mouth")
     ((store_feedback_sets_flag witnessState "det1" "AI" none witnessRow
       (by simp [witnessState]) rfl).2)⟩

end SeroAI

